import Mathlib

/-!
Verification of the natural-language specification of
`scripts/gha/summarize_test_results.py` against a shallow embedding of that
script in Lean.

Modelling notes (they apply throughout the file):

* Python strings are `String`, Python lists are `List`, Python `None`/values
  are `Option`.
* Python `set` objects are modelled as duplicate-free `List String` in
  first-insertion order (`pySetAdd` / `pySetOfList`).  CPython's actual
  iteration order for string sets is hash-dependent and unspecified (hash
  randomisation), so any deterministic embedding must pick an order; the
  model picks insertion order.  Everything that only depends on membership
  and cardinality is faithful; everything that depends on iteration order is
  faithful to "some unspecified order".
* The script imports `BUILD_CONFIGS` (the list of configuration-axis names)
  and `TEST_DEVICES` (a table mapping a device name to a record with a
  `"type"` field) from `print_matrix_configuration`, a file of this
  repository that is not part of the sources given here.  Modelled from the
  spec: the spec only says the axes are "a fixed, externally defined schema
  of configuration axes", so both are kept as explicit parameters
  (`BUILD_CONFIGS : List String`, `TEST_DEVICES : String → Option String`
  collapsing the `.get(device).get("type")` chain to the optional type
  string); theorems quantify over them.
* Python indexing `xs[k]` out of range raises; the model uses `getD` with a
  default.  No theorem below depends on an out-of-range access.
* Python dicts preserve insertion order; they are modelled as association
  lists (`alookup`, `addLabel`, `addBuildCfg`, ...) whose `setdefault`
  semantics append new keys at the end.
-/

/-- The apostrophe character (code point 39), used because the script's
`flat_config` strips apostrophes produced by Python `str` of a list. -/
def squote : Char := Char.ofNat 39

/-- Python `sep.join(l)`. -/
def pyJoin (sep : String) : List String → String
  | [] => ""
  | [x] => x
  | x :: y :: r => x ++ sep ++ pyJoin sep (y :: r)

/-- Python `s.ljust(w)` (pad with spaces on the right). -/
def ljust (s : String) (w : Nat) : String :=
  s ++ String.mk (List.replicate (w - s.length) ' ')

/-- Python `s.ljust(w, c)`. -/
def ljustWith (s : String) (w : Nat) (c : Char) : String :=
  s ++ String.mk (List.replicate (w - s.length) c)

/-- Python `s.replace("'", "")`: drop every apostrophe. -/
def stripQ (s : String) : String :=
  String.mk (s.data.filter (fun c => decide (c ≠ squote)))

/-- ASCII word character, as in the regex `\b` word boundary. -/
def wordChar (c : Char) : Bool := c.isAlpha || c.isDigit || c = '_'

/-- Whether an optional preceding character is a word character. -/
def isWordOpt : Option Char → Bool
  | some c => wordChar c
  | none => false

/-- Whether a character list starts with a word character. -/
def headIsWord : List Char → Bool
  | c :: _ => wordChar c
  | [] => false

/-- Character-level model of `re.sub(r'\b \b', rep, s)`: replace each space
that sits between two word characters (boundaries are judged on the original
string, matches are single spaces, scanned left to right). -/
def subWSChars (rep : List Char) : Option Char → List Char → List Char
  | _, [] => []
  | prev, c :: rest =>
    if c = ' ' && isWordOpt prev && headIsWord rest then
      rep ++ subWSChars rep (some c) rest
    else
      c :: subWSChars rep (some c) rest

/-- `re.sub(r'\b \b', rep, s)` on strings. -/
def subWS (rep s : String) : String := String.mk (subWSChars rep.data none s.data)

/-- Does `hay` start with `needle` (on character lists)? -/
def startsWithL : List Char → List Char → Bool
  | [], _ => true
  | _ :: _, [] => false
  | a :: as, b :: bs => (a == b) && startsWithL as bs

/-- Does `hay` contain `needle` as a contiguous run (on character lists)? -/
def hasSubL (needle : List Char) : List Char → Bool
  | [] => startsWithL needle []
  | c :: t => startsWithL needle (c :: t) || hasSubL needle t

/-- Python `needle in hay` for strings (substring containment). -/
def StrContains (hay needle : String) : Bool := hasSubL needle.data hay.data

/-- A Python `set` of strings, modelled as a duplicate-free list in
first-insertion order (see the header comment on iteration order). -/
abbrev PySet := List String

/-- `s.add(x)` on the set model. -/
def pySetAdd (s : PySet) (x : String) : PySet := if x ∈ s then s else s ++ [x]

/-- Build a set from a list of insertions (`set(l)` / repeated `add`). -/
def pySetOfList (l : List String) : PySet := l.foldl pySetAdd []

/-- Lexicographic comparison of character lists by code point, the order
Python uses to compare strings. -/
def charListLe : List Char → List Char → Bool
  | [], _ => true
  | _ :: _, [] => false
  | a :: as, b :: bs => if a = b then charListLe as bs else decide (a < b)

/-- Python `a <= b` on strings (lexicographic by code point). -/
def pyStrLe (a b : String) : Prop := charListLe a.data b.data = true

instance : DecidableRel pyStrLe := fun a b => by unfold pyStrLe; infer_instance

instance : IsTotal String pyStrLe where
  total a b := by
    unfold pyStrLe
    generalize a.data = x
    generalize b.data = y
    induction x generalizing y with
    | nil => left; rfl
    | cons c cs ih =>
      cases y with
      | nil => right; rfl
      | cons d ds =>
        by_cases hcd : c = d
        · subst hcd
          rcases ih ds with h | h
          · left; simpa [charListLe] using h
          · right; simpa [charListLe] using h
        · rcases lt_or_gt_of_ne hcd with h | h
          · left; simp [charListLe, hcd, h]
          · right; simp [charListLe, Ne.symm hcd, h]

instance : IsTrans String pyStrLe where
  trans a b c := by
    unfold pyStrLe
    generalize a.data = x
    generalize b.data = y
    generalize c.data = z
    induction x generalizing y z with
    | nil => intro _ _; rfl
    | cons u us ih =>
      intro hxy hyz
      cases y with
      | nil => simp [charListLe] at hxy
      | cons v vs =>
        cases z with
        | nil => simp [charListLe] at hyz
        | cons w ws =>
          by_cases huv : u = v
          · subst huv
            by_cases hvw : u = w
            · subst hvw
              simp only [charListLe, if_pos rfl] at hxy hyz ⊢
              exact ih vs ws hxy hyz
            · simp only [charListLe, if_pos rfl] at hxy
              simpa [charListLe, hvw] using hyz
          · by_cases hvw : v = w
            · subst hvw
              simpa [charListLe, huv] using hxy
            · simp only [charListLe, if_neg huv] at hxy
              simp only [charListLe, if_neg hvw] at hyz
              have h1 : u < v := of_decide_eq_true hxy
              have h2 : v < w := of_decide_eq_true hyz
              have h3 : u < w := lt_trans h1 h2
              simp [charListLe, ne_of_lt h3, h3]

/-- Python `sorted(l)` for strings (ascending; Python's sort is a stable
ascending sort, and on duplicate-free key lists any ascending sort agrees,
so a stable insertion sort is an exact model). -/
def pySorted (l : List String) : List String := List.insertionSort pyStrLe l

/-- Split a character list at every whitespace character, keeping the (possibly
empty) chunks between consecutive separators. -/
def splitAtWs : List Char → List (List Char)
  | [] => [[]]
  | c :: rest =>
    if c.isWhitespace then [] :: splitAtWs rest
    else
      match splitAtWs rest with
      | [] => [[c]]
      | w :: ws => (c :: w) :: ws

/-- `re.sub('-', ' ', s)`. -/
def pyReplaceDash (s : String) : String :=
  String.mk (s.data.map (fun c => if c = '-' then ' ' else c))

/-- Python `s.split()`: whitespace-separated words, no empty chunks. -/
def pySplitWs (s : String) : List String :=
  ((splitAtWs s.data).filter (fun w => decide (w ≠ []))).map String.mk

/-! ## Constants of the script -/

def LIST_MAX : Nat := 3
def MISSING_LOG : String := "missing_log"
def TESTAPPS_HEADER : String := "Failures"
def CONFIGS_HEADER : String := "Configs"
def LOG_HEADER : String := "INTEGRATION TEST FAILURES"

/-- A configuration vector: the ordered components extracted from the `*`
part of a log file name. -/
abbrev ConfigVec := List String

/-- `get_configs_from_file_name`, applied to the text matched by the `*` of
the file-name pattern (the regex capture group): replace dashes by spaces,
split on whitespace, and drop the redundant `"latest"` component if present. -/
def get_configs_from_file_name (star : String) : ConfigVec :=
  let configs := pySplitWs (pyReplaceDash star)
  if "latest" ∈ configs then configs.filter (fun c => decide (c ≠ "latest")) else configs

/-- `reorganize_configs`: per axis `j` of `BUILD_CONFIGS`, collect the set of
values occurring at position `j` of the given config vectors (insertion order:
first file first), then drop empty sets. -/
def reorganize_configs (BUILD_CONFIGS : List String) (configs : List ConfigVec) : List PySet :=
  if configs.isEmpty then []
  else
    ((List.range BUILD_CONFIGS.length).map
        (fun j => pySetOfList (configs.map (fun c => c.getD j "")))).filter
      (fun s => decide (s ≠ []))

/-- The test `TEST_DEVICES.get(device) and TEST_DEVICES.get(device).get("type") in hay`:
the optional type string of the device is a substring of `hay`. -/
def deviceTypeIn (TEST_DEVICES : String → Option String) (hay : String) (device : String) : Bool :=
  match TEST_DEVICES device with
  | some t => hasSubL t.data hay.data
  | none => false

/-- `flat_config` applied (inside `combine_config`) to a set of strings:
`str` of each element (a bare string), apostrophes stripped, joined by a
single space in the set's iteration order. -/
def flat_config_set (config : PySet) : String := pyJoin " " (config.map stripQ)

/-- Python `str` of a list of strings with apostrophes stripped:
`str(['a', 'b']).replace("'","")` is `"[a, b]"`. -/
def pyListRepr (c : List String) : String := "[" ++ pyJoin ", " (c.map stripQ) ++ "]"

/-- `flat_config` applied (inside `reorganize_log`) to a list of lists of
strings: `str` of each component list, apostrophes stripped, joined by
spaces. -/
def flat_config (configs : List (List String)) : String :=
  pyJoin " " (configs.map pyListRepr)

/-- The `elif config_name == "Test Device(s)"` branch of `combine_config`:
group real ("FTL") and virtual devices into `"All n ... Devices"` entries when
all of them failed; on any other axis name, leave `config` unchanged.  (In
Python, if both sub-branches fire the second `config.add` would raise
`AttributeError` because `config` has become a list; the model applies the
same set update in both sub-branches.  No theorem below exercises that
path.) -/
def deviceAdjustFtl (TEST_DEVICES : String → Option String)
    (config_value config : PySet) : PySet :=
  if 1 < (config_value.filter (deviceTypeIn TEST_DEVICES "real")).length ∧
      (config_value.filter (deviceTypeIn TEST_DEVICES "real")).all
        (fun d => decide (d ∈ config)) then
    (pySetAdd config ("All "
        ++ toString (config_value.filter (deviceTypeIn TEST_DEVICES "real")).length
        ++ " FTL Devices")).filter
      (fun x => decide (x ∉ config_value.filter (deviceTypeIn TEST_DEVICES "real")))
  else config

def deviceAdjustVirtual (TEST_DEVICES : String → Option String)
    (config_value config : PySet) : PySet :=
  if 1 < (config_value.filter (deviceTypeIn TEST_DEVICES "virtual")).length ∧
      (config_value.filter (deviceTypeIn TEST_DEVICES "virtual")).all
        (fun d => decide (d ∈ config)) then
    (pySetAdd config ("All "
        ++ toString (config_value.filter (deviceTypeIn TEST_DEVICES "virtual")).length
        ++ " Virtual Devices")).filter
      (fun x => decide (x ∉ config_value.filter (deviceTypeIn TEST_DEVICES "virtual")))
  else config

def deviceAdjust (TEST_DEVICES : String → Option String) (config_name : String)
    (config_value config : PySet) : PySet :=
  if config_name = "Test Device(s)" then
    deviceAdjustVirtual TEST_DEVICES config_value (deviceAdjustFtl TEST_DEVICES config_value config)
  else config

/-- `combine_config(config, config_value, k)`.  `config` is the set of failing
values of axis `k`, `config_value` the universe of exercised values of that
axis.  Mirrors the source: the "All N axis" branch, the `"Test Device(s)"`
grouping branch (`deviceAdjust`), then the "k/N axis: values" branch guarded
by `config_before_combination == config`. -/
def combine_config (BUILD_CONFIGS : List String) (TEST_DEVICES : String → Option String)
    (config config_value : PySet) (k : Nat) : List String :=
  if 1 < config_value.length ∧ config.length = config_value.length then
    ["All " ++ toString config_value.length ++ " " ++ BUILD_CONFIGS.getD k ""]
  else if 1 < config_value.length ∧
      deviceAdjust TEST_DEVICES (BUILD_CONFIGS.getD k "") config_value config = config then
    [toString config.length ++ "/" ++ toString config_value.length ++ " "
      ++ BUILD_CONFIGS.getD k "" ++ ": " ++ flat_config_set config]
  else deviceAdjust TEST_DEVICES (BUILD_CONFIGS.getD k "") config_value config

/-- `combine_configs`: combine each axis of the failing sets against the
corresponding axis of the universe. -/
def combine_configs (BUILD_CONFIGS : List String) (TEST_DEVICES : String → Option String)
    (error_configs all_configs : List PySet) : List (List String) :=
  (List.range error_configs.length).map
    (fun i => combine_config BUILD_CONFIGS TEST_DEVICES
      (error_configs.getD i []) (all_configs.getD i []) i)

/-! ## The `log_data` accumulator of `summarize_logs` -/

/-- One test application's slot in `log_data`: the Python nested-dict shape
`{"build": [...], "test": {"errors": [...], "failures": [...], "flakiness": [...]}}`
flattened into four config-vector lists (`setdefault` creates the missing
levels, so the flattening is exact). -/
structure AppEntry where
  build : List ConfigVec
  testErrors : List ConfigVec
  testFailures : List ConfigVec
  testFlakiness : List ConfigVec
deriving DecidableEq, Repr

abbrev LogData := List (String × AppEntry)
abbrev LogResults := List (String × List (String × List String))

def emptyEntry : AppEntry := ⟨[], [], [], []⟩

/-- First-entry lookup in an association list (Python dict access). -/
def alookup {β : Type} : List (String × β) → String → Option β
  | [], _ => none
  | p :: t, k => if p.1 = k then some p.2 else alookup t k

/-- `log_data.setdefault(app, ...)` followed by an in-place update of the
looked-up entry: if `app` is present, update its entry with `upd`; otherwise
append `(app, init)` at the end (Python dicts append new keys last). -/
def addField (upd : AppEntry → AppEntry) (init : AppEntry) (d : LogData) (app : String) : LogData :=
  match alookup d app with
  | some _ => d.map (fun p => if p.1 = app then (p.1, upd p.2) else p)
  | none => d ++ [(app, init)]

/-- `log_data.setdefault(app, {}).setdefault("build", []).append(v)`. -/
def addBuildCfg (d : LogData) (app : String) (v : ConfigVec) : LogData :=
  addField (fun e => { e with build := e.build ++ [v] }) { emptyEntry with build := [v] } d app

/-- `log_data.setdefault(app, {}).setdefault("test", {}).setdefault("errors", []).append(v)`. -/
def addTestErrCfg (d : LogData) (app : String) (v : ConfigVec) : LogData :=
  addField (fun e => { e with testErrors := e.testErrors ++ [v] })
    { emptyEntry with testErrors := [v] } d app

/-- As above for `"failures"`. -/
def addTestFailCfg (d : LogData) (app : String) (v : ConfigVec) : LogData :=
  addField (fun e => { e with testFailures := e.testFailures ++ [v] })
    { emptyEntry with testFailures := [v] } d app

/-- As above for `"flakiness"`. -/
def addTestFlakyCfg (d : LogData) (app : String) (v : ConfigVec) : LogData :=
  addField (fun e => { e with testFlakiness := e.testFlakiness ++ [v] })
    { emptyEntry with testFlakiness := [v] } d app

/-! ## Input model and the scan loop of `summarize_logs` -/

/-- Parsed JSON of a build log: its `"errors"` dict, kept as the ordered list
of test-application keys (the values are ignored by the script). -/
structure BuildParsed where
  errors : List String
deriving DecidableEq, Repr

/-- Parsed JSON of a test log: the key lists of its `"errors"`, `"failures"`
and `"flakiness"` dicts. -/
structure TestParsed where
  errors : List String
  failures : List String
  flakiness : List String
deriving DecidableEq, Repr

/-- Content of one log file: either it contains the `__SUMMARY_MISSING__`
sentinel, or it parses as JSON. -/
inductive FileContent (α : Type) where
  | missing
  | parsed (d : α)
deriving DecidableEq, Repr

/-- The input directory: each file represented by the text matched by the `*`
of its name pattern, plus its content. -/
structure Input where
  buildFiles : List (String × FileContent BuildParsed)
  testFiles : List (String × FileContent TestParsed)
deriving DecidableEq, Repr

/-- The mutable state of the scan loop in `summarize_logs`:
`success_or_only_flakiness`, `log_data`, and the two halves of
`all_tested_configs`. -/
structure SummState where
  success : Bool
  log_data : LogData
  build_configs : List ConfigVec
  test_configs : List ConfigVec
deriving DecidableEq, Repr

/-- Processing of one build log file. -/
def processBuildFile (st : SummState) (f : String × FileContent BuildParsed) : SummState :=
  let configs := get_configs_from_file_name f.1
  let st := { st with build_configs := st.build_configs ++ [configs] }
  match f.2 with
  | .missing => { st with success := false, log_data := addBuildCfg st.log_data MISSING_LOG configs }
  | .parsed d =>
    d.errors.foldl
      (fun s app => { s with success := false, log_data := addBuildCfg s.log_data app configs }) st

/-- Processing of one test log file. -/
def processTestFile (st : SummState) (f : String × FileContent TestParsed) : SummState :=
  let configs := get_configs_from_file_name f.1
  let st := { st with test_configs := st.test_configs ++ [configs] }
  match f.2 with
  | .missing => { st with success := false, log_data := addTestErrCfg st.log_data MISSING_LOG configs }
  | .parsed d =>
    let st := d.errors.foldl
      (fun s app => { s with success := false, log_data := addTestErrCfg s.log_data app configs }) st
    let st := d.failures.foldl
      (fun s app => { s with success := false, log_data := addTestFailCfg s.log_data app configs }) st
    d.flakiness.foldl
      (fun s app => { s with log_data := addTestFlakyCfg s.log_data app configs }) st

/-- State after both scan loops of `summarize_logs`. -/
def summState (inp : Input) : SummState :=
  inp.testFiles.foldl processTestFile (inp.buildFiles.foldl processBuildFile ⟨true, [], [], []⟩)

/-! ## `reorganize_log` and the renderers -/

/-- The category+config label built in one branch of `reorganize_log`:
`flat_config([[c1], [c2]] ++ combine_configs(reorganize_configs(cfgs), allCfg))`. -/
def mkLabel (BUILD_CONFIGS : List String) (TEST_DEVICES : String → Option String)
    (c1 c2 : String) (cfgs : List ConfigVec) (allCfg : List PySet) : String :=
  flat_config ([[c1], [c2]] ++ combine_configs BUILD_CONFIGS TEST_DEVICES
    (reorganize_configs BUILD_CONFIGS cfgs) allCfg)

/-- `log_results.setdefault(app, {}).setdefault(lbl, [])`. -/
def addLabel (res : LogResults) (app lbl : String) : LogResults :=
  match alookup res app with
  | none => res ++ [(app, [(lbl, [])])]
  | some inner =>
    match alookup inner lbl with
    | some _ => res
    | none => res.map (fun q => if q.1 = app then (q.1, q.2 ++ [(lbl, [])]) else q)

/-- The body of the `reorganize_log` loop for one `(testapp, errors)` item:
the four `if errors.get(...)` branches, each `setdefault`-ing the category's
label. -/
def reorganizeStep (BUILD_CONFIGS : List String) (TEST_DEVICES : String → Option String)
    (allB allT : List PySet) (res : LogResults) (p : String × AppEntry) : LogResults :=
  let res := if p.2.build ≠ [] then
    addLabel res p.1 (mkLabel BUILD_CONFIGS TEST_DEVICES "BUILD" "ERROR" p.2.build allB) else res
  let res := if p.2.testErrors ≠ [] then
    addLabel res p.1 (mkLabel BUILD_CONFIGS TEST_DEVICES "TEST" "ERROR" p.2.testErrors allT) else res
  let res := if p.2.testFailures ≠ [] then
    addLabel res p.1 (mkLabel BUILD_CONFIGS TEST_DEVICES "TEST" "FAILURE" p.2.testFailures allT) else res
  if p.2.testFlakiness ≠ [] then
    addLabel res p.1 (mkLabel BUILD_CONFIGS TEST_DEVICES "TEST" "FLAKINESS" p.2.testFlakiness allT) else res

/-- `reorganize_log(log_data, all_tested_configs)`. -/
def reorganize_log (BUILD_CONFIGS : List String) (TEST_DEVICES : String → Option String)
    (log_data : LogData) (allB allT : List PySet) : LogResults :=
  log_data.foldl (reorganizeStep BUILD_CONFIGS TEST_DEVICES allB allT) []

/-- The string added to `config_set` in `format_result` for one
`(config, tests)` item. -/
def renderEntry (sc ls : String) (p : String × List String) : String :=
  if p.2.isEmpty then p.1 ++ ls
  else
    p.1 ++ "<details><summary>(" ++ toString p.2.length ++ " failed tests)</summary>"
      ++ pyJoin ls (pySorted (p.2.map (fun t => sc ++ sc ++ t))) ++ "</details>"

/-- The `config_set` built by `format_result` (a Python set; its cardinality
decides collapsing, and it is sorted before being joined). -/
def format_entries (sc ls : String) (ct : List (String × List String)) : PySet :=
  pySetOfList (ct.map (renderEntry sc ls))

/-- `format_result(config_tests, space_char, list_separator, justify)`. -/
def format_result (ct : List (String × List String)) (sc ls : String) (justify : Nat) : String :=
  let s := format_entries sc ls ct
  if LIST_MAX < s.length then
    "<details><summary>(" ++ toString s.length ++ " items)</summary>"
      ++ pyJoin "" (pySorted s) ++ "</details>"
  else ljust (pyJoin "" (pySorted s)) justify

/-- `re.sub("[^|]", "-", header)`. -/
def dashify (s : String) : String :=
  String.mk (s.data.map (fun c => if c = '|' then c else '-'))

/-- One `| name | cell |` table line (the name column goes through
`ljust` and the word-space substitution, the cell does not). -/
def mkRow (tw : Nat) (sc : String) (name cell : String) : String :=
  "| " ++ subWS sc (ljust name tw) ++ " | " ++ cell ++ " |"

/-- The `| Failures | Configs |` header line. -/
def tableHeader1 (tw cw : Nat) (sc : String) : String :=
  "| " ++ subWS sc (ljust TESTAPPS_HEADER tw) ++ " | " ++ subWS sc (ljust CONFIGS_HEADER cw) ++ " |"

/-- The `|---|---|` separator line. -/
def tableHeader2 (tw cw : Nat) (sc : String) : String :=
  "|-" ++ dashify (subWS sc (ljust TESTAPPS_HEADER tw)) ++ "-|-"
    ++ dashify (subWS sc (ljust CONFIGS_HEADER cw)) ++ "-|"

/-- `sorted(log_results.keys())`. -/
def sortedKeys (lr : LogResults) : List String := pySorted (lr.map Prod.fst)

/-- `print_table`: headers, then (if present) the popped `missing_log` row,
then one row per remaining test application in sorted key order. -/
def print_table (lr : LogResults) (tw cw : Nat) (sc ls : String) : List String :=
  match alookup lr MISSING_LOG with
  | some v =>
    let rest := lr.filter (fun p => decide (p.1 ≠ MISSING_LOG))
    [tableHeader1 tw cw sc, tableHeader2 tw cw sc,
      mkRow tw sc MISSING_LOG (format_result v sc ls cw)]
      ++ (sortedKeys rest).map
        (fun k => mkRow tw sc k (format_result ((alookup rest k).getD []) sc ls cw))
  | none =>
    [tableHeader1 tw cw sc, tableHeader2 tw cw sc]
      ++ (sortedKeys lr).map
        (fun k => mkRow tw sc k (format_result ((alookup lr k).getD []) sc ls cw))

/-- `print_markdown_table`. -/
def print_markdown_table (lr : LogResults) : List String :=
  print_table lr 0 0 "&nbsp;" "<br/>"

/-- Python `str` of a list of strings (with its quotes), as printed by the
`failed tests` line of `print_log`. -/
def pyStrListRepr (l : List String) : String :=
  "[" ++ pyJoin ", " (l.map (fun s => String.mk [squote] ++ s ++ String.mk [squote])) ++ "]"

/-- `print_log`. -/
def print_log (lr : LogResults) : List String :=
  (lr.map (fun p =>
    [""] ++ [p.1 ++ ":"]
      ++ (if 0 < p.2.length then ["  Errors and Failures (" ++ toString p.2.length ++ "):"] else [])
      ++ (p.2.map (fun q =>
            ["  - " ++ q.1]
              ++ (if q.2 ≠ [] then ["    - failed tests: " ++ pyStrListRepr q.2] else []))).flatten)).flatten.drop 1

/-- `print_log` with the `failed tests` branch removed (used to state that
this branch of the source is unreachable from `reorganize_log` output). -/
def print_log_no_extra (lr : LogResults) : List String :=
  (lr.map (fun p =>
    [""] ++ [p.1 ++ ":"]
      ++ (if 0 < p.2.length then ["  Errors and Failures (" ++ toString p.2.length ++ "):"] else [])
      ++ p.2.map (fun q => "  - " ++ q.1))).flatten.drop 1

/-- `format_result` with the per-test `<details>` branch removed (used to
state that this branch of the source is unreachable from `reorganize_log`
output). -/
def format_result_simple (ct : List (String × List String)) (sc ls : String) (justify : Nat) : String :=
  let s := pySetOfList (ct.map (fun p => p.1 ++ ls))
  if LIST_MAX < s.length then
    "<details><summary>(" ++ toString s.length ++ " items)</summary>"
      ++ pyJoin "" (pySorted s) ++ "</details>"
  else ljust (pyJoin "" (pySorted s)) justify

/-- `print_github_log`. -/
def print_github_log (lr : LogResults) : List String :=
  [pyJoin "%0A" (["::error ::" ++ LOG_HEADER, ljustWith "" LOG_HEADER.length '—', ""]
    ++ print_log lr)]

/-- `summarize_logs(dir, markdown, github_log)` on the input model: the early
`(success, None)` return, otherwise the chosen renderer's lines joined by
newlines. -/
def summarize_logs (BUILD_CONFIGS : List String) (TEST_DEVICES : String → Option String)
    (inp : Input) (markdown github_log : Bool) : Bool × Option String :=
  let st := summState inp
  if st.success = true ∧ st.log_data = [] then (st.success, none)
  else
    let allB := reorganize_configs BUILD_CONFIGS st.build_configs
    let allT := reorganize_configs BUILD_CONFIGS st.test_configs
    let lr := reorganize_log BUILD_CONFIGS TEST_DEVICES st.log_data allB allT
    let lines :=
      if markdown then print_markdown_table lr
      else if github_log then print_github_log lr
      else print_log lr
    (st.success, some (pyJoin "\n" lines))

/-- Aggregating a single configuration vector against itself as universe and
flattening the compacted label (the aggregation pipeline of the round-trip
property). -/
def aggregate_label (BUILD_CONFIGS : List String) (TEST_DEVICES : String → Option String)
    (v : ConfigVec) : String :=
  flat_config (combine_configs BUILD_CONFIGS TEST_DEVICES
    (reorganize_configs BUILD_CONFIGS [v]) (reorganize_configs BUILD_CONFIGS [v]))

/-- The four failure categories a single failing configuration can have. -/
inductive FailCat where
  | buildError
  | testError
  | testFailure
  | testFlakiness
deriving DecidableEq, Repr

/-- The category label rendered at the front of a config label. -/
def catLabel : FailCat → String
  | .buildError => "[BUILD] [ERROR]"
  | .testError => "[TEST] [ERROR]"
  | .testFailure => "[TEST] [FAILURE]"
  | .testFlakiness => "[TEST] [FLAKINESS]"

/-- An input directory holding exactly one failing configuration of the given
category, for test application `t`, from a file whose `*` part is `star`. -/
def singleInput : FailCat → String → String → Input
  | .buildError, t, star => ⟨[(star, .parsed ⟨[t]⟩)], []⟩
  | .testError, t, star => ⟨[], [(star, .parsed ⟨[t], [], []⟩)]⟩
  | .testFailure, t, star => ⟨[], [(star, .parsed ⟨[], [t], []⟩)]⟩
  | .testFlakiness, t, star => ⟨[], [(star, .parsed ⟨[], [], [t]⟩)]⟩

/-! ## General lemmas about the string and list helpers -/

theorem pyJoin_cons (sep a b : String) (r : List String) :
    pyJoin sep (a :: b :: r) = a ++ sep ++ pyJoin sep (b :: r) := rfl

theorem startsWithL_append (n r : List Char) : startsWithL n (n ++ r) = true := by
  induction n with
  | nil => rfl
  | cons c t ih => simp [startsWithL, ih]

theorem hasSubL_of_startsWithL {n h : List Char} (hs : startsWithL n h = true) :
    hasSubL n h = true := by
  cases h with
  | nil => simpa [hasSubL] using hs
  | cons c t => simp [hasSubL, hs]

theorem startsWithL_extend {n a : List Char} (b : List Char)
    (hs : startsWithL n a = true) : startsWithL n (a ++ b) = true := by
  induction n generalizing a with
  | nil => rfl
  | cons c t ih =>
    cases a with
    | nil => simp [startsWithL] at hs
    | cons d u =>
      simp only [startsWithL, Bool.and_eq_true] at hs ⊢
      exact ⟨hs.1, ih hs.2⟩

theorem hasSubL_append_left {n a : List Char} (b : List Char)
    (hs : hasSubL n a = true) : hasSubL n (a ++ b) = true := by
  induction a with
  | nil =>
    simp only [hasSubL] at hs
    exact hasSubL_of_startsWithL (startsWithL_extend b hs)
  | cons c t ih =>
    simp only [hasSubL, Bool.or_eq_true] at hs
    rcases hs with hs | hs
    · simp only [List.cons_append, hasSubL, Bool.or_eq_true]
      exact Or.inl (startsWithL_extend b hs)
    · simp only [List.cons_append, hasSubL, Bool.or_eq_true]
      exact Or.inr (ih hs)

theorem hasSubL_append_right {n b : List Char} (a : List Char)
    (hs : hasSubL n b = true) : hasSubL n (a ++ b) = true := by
  induction a with
  | nil => simpa using hs
  | cons c t ih => simp only [List.cons_append, hasSubL, Bool.or_eq_true]; exact Or.inr ih

theorem StrContains_append_left {h n : String} (b : String)
    (hs : StrContains h n = true) : StrContains (h ++ b) n = true := by
  simpa [StrContains, String.data_append] using hasSubL_append_left b.data hs

theorem StrContains_append_right {h n : String} (a : String)
    (hs : StrContains h n = true) : StrContains (a ++ h) n = true := by
  simpa [StrContains, String.data_append] using hasSubL_append_right a.data hs

theorem StrContains_self (n : String) : StrContains n n = true := by
  have := startsWithL_append n.data []
  simp only [List.append_nil] at this
  exact hasSubL_of_startsWithL this

theorem StrContains_pyJoin {n x : String} (sep : String) (L : List String)
    (hx : x ∈ L) (hs : StrContains x n = true) :
    StrContains (pyJoin sep L) n = true := by
  induction L with
  | nil => cases hx
  | cons a t ih =>
    cases t with
    | nil =>
      rcases List.mem_singleton.1 hx with rfl
      simpa [pyJoin] using hs
    | cons b u =>
      rcases List.mem_cons.1 hx with rfl | hx
      · rw [pyJoin_cons]
        exact StrContains_append_left _ (StrContains_append_left _ hs)
      · rw [pyJoin_cons]
        exact StrContains_append_right _ (ih hx)

theorem string_mk_nil : String.mk [] = "" := rfl

theorem string_append_nil (s : String) : s ++ String.mk [] = s := by
  apply String.ext
  simp [String.data_append]

theorem ljust_zero (s : String) : ljust s 0 = s := by
  simp only [ljust, Nat.zero_sub, List.replicate_zero]
  exact string_append_nil s

theorem subWSChars_no_space {l : List Char} (rep : List Char)
    (h : ∀ c ∈ l, c ≠ ' ') : ∀ prev, subWSChars rep prev l = l := by
  induction l with
  | nil => intro prev; rfl
  | cons c t ih =>
    intro prev
    have hc : c ≠ ' ' := h c (List.mem_cons_self c t)
    rw [subWSChars, if_neg (by simp [hc]), ih (fun d hd => h d (List.mem_cons_of_mem c hd))]

theorem subWS_no_space {s : String} (rep : String)
    (h : ∀ c ∈ s.data, c ≠ ' ') : subWS rep s = s := by
  apply String.ext
  simp only [subWS]
  exact subWSChars_no_space rep.data h none

theorem range_map_getD {α : Type} (l : List α) (d : α) :
    (List.range l.length).map (fun i => l.getD i d) = l := by
  induction l with
  | nil => rfl
  | cons a t ih =>
    rw [List.length_cons, List.range_succ_eq_map, List.map_cons, List.map_map]
    have hcomp : ((fun i => (a :: t).getD i d) ∘ Nat.succ) = fun i => t.getD i d := by
      funext i
      simp
    rw [hcomp, List.getD_cons_zero, ih]

theorem pySorted_single (a : String) : pySorted [a] = [a] := by
  simp [pySorted, List.insertionSort, List.orderedInsert]

/-! ## Lemmas about `combine_config` -/

theorem deviceAdjust_of_ne {name : String} (TD : String → Option String)
    (hv : name ≠ "Test Device(s)") (config_value config : PySet) :
    deviceAdjust TD name config_value config = config := by
  simp [deviceAdjust, hv]

theorem deviceAdjustFtl_small {config_value : PySet} (TD : String → Option String)
    (config : PySet) (hv : config_value.length ≤ 1) :
    deviceAdjustFtl TD config_value config = config := by
  have h1 : (config_value.filter (deviceTypeIn TD "real")).length ≤ 1 :=
    le_trans (List.length_filter_le _ _) hv
  unfold deviceAdjustFtl
  rw [if_neg (fun hcon => absurd hcon.1 (by omega))]

theorem deviceAdjustVirtual_small {config_value : PySet} (TD : String → Option String)
    (config : PySet) (hv : config_value.length ≤ 1) :
    deviceAdjustVirtual TD config_value config = config := by
  have h1 : (config_value.filter (deviceTypeIn TD "virtual")).length ≤ 1 :=
    le_trans (List.length_filter_le _ _) hv
  unfold deviceAdjustVirtual
  rw [if_neg (fun hcon => absurd hcon.1 (by omega))]

theorem deviceAdjust_small {config_value : PySet} (TD : String → Option String)
    (name : String) (config : PySet) (hv : config_value.length ≤ 1) :
    deviceAdjust TD name config_value config = config := by
  unfold deviceAdjust
  split
  · rw [deviceAdjustFtl_small TD config hv, deviceAdjustVirtual_small TD config hv]
  · rfl

theorem combine_config_refl_small (BC : List String) (TD : String → Option String)
    (c : PySet) (k : Nat) (hc : c.length ≤ 1) :
    combine_config BC TD c c k = c := by
  unfold combine_config
  rw [if_neg (fun hcon => absurd hcon.1 (by omega)),
    if_neg (fun hcon => absurd hcon.1 (by omega))]
  exact deviceAdjust_small TD _ c hc

/-! ## Claims C1 and C2: the `combine_config` compaction -/

/-- C1 (amended): for every configuration axis `k`, if the set of failing
values collected for that axis has exactly the same members as the universe
of exercised values, and the universe has at least **two** values, then
`combine_config` renders the axis as the single label `"All N <axis-name>"`
with `N` the universe size.  (The claim's `N = 1` case is false: see the
counterexample theorem; the source guards this branch with
`len(config_value) > 1`.) -/
theorem c1_combine_all (BUILD_CONFIGS : List String) (TEST_DEVICES : String → Option String)
    (config config_value : PySet) (k : Nat)
    (hN : 2 ≤ config_value.length)
    (h1 : config.Nodup) (h2 : config_value.Nodup)
    (hmem : ∀ x, x ∈ config ↔ x ∈ config_value) :
    combine_config BUILD_CONFIGS TEST_DEVICES config config_value k
      = ["All " ++ toString config_value.length ++ " " ++ BUILD_CONFIGS.getD k ""] := by
  have hle1 : config.length ≤ config_value.length :=
    (List.subperm_of_subset h1 (fun x hx => (hmem x).1 hx)).length_le
  have hle2 : config_value.length ≤ config.length :=
    (List.subperm_of_subset h2 (fun x hx => (hmem x).2 hx)).length_le
  unfold combine_config
  rw [if_pos ⟨by omega, by omega⟩]

/-- C1 witness: a two-value universe that failed completely renders as
`"All 2 os"`. -/
theorem c1_combine_all_witness :
    combine_config ["os"] (fun _ => none) ["ubuntu", "windows"] ["ubuntu", "windows"] 0
      = ["All 2 os"] :=
  (c1_combine_all ["os"] (fun _ => none) ["ubuntu", "windows"] ["ubuntu", "windows"] 0
    (by decide) (by decide) (by decide) (fun x => Iff.rfl)).trans (by decide)

/-- C1 counterexample: with a universe of exactly one value (`N = 1`) whose
single value failed, `combine_config` renders the bare value, not
`"All 1 os"` — the claim's "including a universe of exactly one value" is
false of the code. -/
theorem c1_counterexample :
    combine_config ["os"] (fun _ => none) ["ubuntu"] ["ubuntu"] 0 = ["ubuntu"] ∧
    combine_config ["os"] (fun _ => none) ["ubuntu"] ["ubuntu"] 0 ≠ ["All 1 os"] := by
  constructor
  · exact combine_config_refl_small ["os"] (fun _ => none) ["ubuntu"] 0 (by decide)
  · decide

/-- C2 (amended): for every axis `k` whose name is not `"Test Device(s)"`,
if the failing set is a non-empty strict subset of size `kk` of a universe of
size `N > 1`, `combine_config` renders `"kk/N <axis-name>: "` followed by the
failing values in the **failing set's iteration order** (first-insertion
order in this model; CPython's set order is unspecified), separated by
single spaces — not in sorted order as the claim states. -/
theorem c2_combine_subset (BUILD_CONFIGS : List String) (TEST_DEVICES : String → Option String)
    (config config_value : PySet) (k : Nat)
    (hname : BUILD_CONFIGS.getD k "" ≠ "Test Device(s)")
    (hN : 2 ≤ config_value.length)
    (hne : config ≠ [])
    (hlt : config.length < config_value.length) :
    combine_config BUILD_CONFIGS TEST_DEVICES config config_value k
      = [toString config.length ++ "/" ++ toString config_value.length ++ " "
          ++ BUILD_CONFIGS.getD k "" ++ ": " ++ flat_config_set config] := by
  unfold combine_config
  rw [if_neg (fun hcon => absurd hcon.2 (by omega)),
    if_pos ⟨by omega, deviceAdjust_of_ne TEST_DEVICES hname config_value config⟩]

/-- C2 witness: failing set `{windows, ubuntu}` (in that insertion order)
against universe `{windows, ubuntu, macos}` renders `"2/3 os: windows ubuntu"`. -/
theorem c2_combine_subset_witness :
    combine_config ["os"] (fun _ => none) ["windows", "ubuntu"]
      ["windows", "ubuntu", "macos"] 0 = ["2/3 os: windows ubuntu"] :=
  (c2_combine_subset ["os"] (fun _ => none) ["windows", "ubuntu"]
    ["windows", "ubuntu", "macos"] 0 (by decide) (by decide) (by decide) (by decide)).trans
    (by decide)

/-- C2 counterexample: run through `reorganize_configs` and `combine_configs`
exactly as `reorganize_log` does, a failing set collected in the order
`windows`, `ubuntu` renders as `"2/3 os: windows ubuntu"`, which is not the
sorted rendering `"2/3 os: ubuntu windows"` the claim requires. -/
theorem c2_counterexample :
    combine_configs ["os"] (fun _ => none)
        (reorganize_configs ["os"] [["windows"], ["ubuntu"]])
        (reorganize_configs ["os"] [["windows"], ["ubuntu"], ["macos"]])
      = [["2/3 os: windows ubuntu"]] ∧
    ("2/3 os: windows ubuntu" : String) ≠ "2/3 os: ubuntu windows" := by
  constructor
  · decide
  · decide

/-! ## Claim C5: Markdown cell collapsing -/

/-- C5: in table rendering, when the set of distinct rendered configuration
entries of a cell (`format_entries`, the `config_set` of the source) holds
more than `LIST_MAX = 3` items, `format_result` collapses the cell into a
`<details>` disclosure widget stating the item count; otherwise it renders
the at most 3 entries inline — a cell never shows more than 3 entries
inline.  (Entries are counted as the *distinct* rendered strings, exactly as
the source counts `len(config_set)`.) -/
theorem c5_format_result_collapse (ct : List (String × List String)) (sc ls : String) (j : Nat) :
    (LIST_MAX < (format_entries sc ls ct).length →
      format_result ct sc ls j
        = "<details><summary>(" ++ toString (format_entries sc ls ct).length
            ++ " items)</summary>" ++ pyJoin "" (pySorted (format_entries sc ls ct))
            ++ "</details>") ∧
    ((format_entries sc ls ct).length ≤ LIST_MAX →
      format_result ct sc ls j = ljust (pyJoin "" (pySorted (format_entries sc ls ct))) j ∧
      (pySorted (format_entries sc ls ct)).length ≤ LIST_MAX) := by
  constructor
  · intro h
    simp only [format_result]
    rw [if_pos h]
  · intro h
    simp only [format_result]
    rw [if_neg (by omega)]
    refine ⟨rfl, ?_⟩
    rw [pySorted, List.length_insertionSort]
    exact h

/-- C5 witness: four distinct entries collapse into a 4-item disclosure
widget. -/
theorem c5_format_result_collapse_witness :
    LIST_MAX < (format_entries "&nbsp;" "<br/>" [("a", []), ("b", []), ("c", []), ("d", [])]).length ∧
    format_result [("a", []), ("b", []), ("c", []), ("d", [])] "&nbsp;" "<br/>" 0
      = "<details><summary>(4 items)</summary>a<br/>b<br/>c<br/>d<br/></details>" :=
  ⟨by decide,
    ((c5_format_result_collapse [("a", []), ("b", []), ("c", []), ("d", [])] "&nbsp;" "<br/>" 0).1
      (by decide)).trans (by decide)⟩

/-! ## Claim C9: `reorganize_log` never records failed-test names -/

theorem foldl_preserve {α σ : Type} (P : σ → Prop) (f : σ → α → σ)
    (h : ∀ s a, P s → P (f s a)) : ∀ (l : List α) (s : σ), P s → P (List.foldl f s l) := by
  intro l
  induction l with
  | nil => intro s hs; exact hs
  | cons a t ih => intro s hs; exact ih (f s a) (h s a hs)

/-- `addLabel` only ever inserts an empty failed-test list. -/
theorem addLabel_values {res : LogResults} (app lbl : String)
    (h : ∀ p ∈ res, ∀ q ∈ p.2, q.2 = ([] : List String)) :
    ∀ p ∈ addLabel res app lbl, ∀ q ∈ p.2, q.2 = ([] : List String) := by
  intro p hp q hq
  unfold addLabel at hp
  split at hp
  · rcases List.mem_append.1 hp with hp | hp
    · exact h p hp q hq
    · rcases List.mem_singleton.1 hp with rfl
      rcases List.mem_singleton.1 hq with rfl
      rfl
  · split at hp
    · exact h p hp q hq
    · rcases List.mem_map.1 hp with ⟨p', hp', hfp⟩
      by_cases hk : p'.1 = app
      · rw [if_pos hk] at hfp
        subst hfp
        rcases List.mem_append.1 hq with hq | hq
        · exact h p' hp' q hq
        · rcases List.mem_singleton.1 hq with rfl
          rfl
      · rw [if_neg hk] at hfp
        subst hfp
        exact h p' hp' q hq

/-- One step of the `reorganize_log` fold preserves the empty-values
invariant. -/
theorem reorganizeStep_values (BC : List String) (TD : String → Option String)
    (allB allT : List PySet) (res : LogResults) (p : String × AppEntry)
    (h : ∀ r ∈ res, ∀ q ∈ r.2, q.2 = ([] : List String)) :
    ∀ r ∈ reorganizeStep BC TD allB allT res p,
      ∀ q ∈ r.2, q.2 = ([] : List String) := by
  unfold reorganizeStep
  have step : ∀ (res' : LogResults) (b : Prop) [Decidable b] (lbl : String),
      (∀ r ∈ res', ∀ q ∈ r.2, q.2 = ([] : List String)) →
      ∀ r ∈ (if b then addLabel res' p.1 lbl else res'), ∀ q ∈ r.2, q.2 = ([] : List String) := by
    intro res' b _ lbl hres'
    split
    · exact addLabel_values p.1 lbl hres'
    · exact hres'
  exact step _ _ _ (step _ _ _ (step _ _ _ (step _ _ _ h)))

/-- C9: every failed-test list in the aggregated result of `reorganize_log`
is empty, hence `print_log` never emits its `- failed tests:` line (it equals
the variant with that branch deleted) and `format_result` never emits its
per-test `(n failed tests)` disclosure (it equals the variant with that
branch deleted): both branches are unreachable from `reorganize_log`
output. -/
theorem c9_no_failed_tests (BC : List String) (TD : String → Option String)
    (d : LogData) (allB allT : List PySet) :
    (∀ p ∈ reorganize_log BC TD d allB allT, ∀ q ∈ p.2, q.2 = ([] : List String)) ∧
    print_log (reorganize_log BC TD d allB allT)
      = print_log_no_extra (reorganize_log BC TD d allB allT) ∧
    ∀ sc ls j, ∀ p ∈ reorganize_log BC TD d allB allT,
      format_result p.2 sc ls j = format_result_simple p.2 sc ls j := by
  have hinv : ∀ p ∈ reorganize_log BC TD d allB allT, ∀ q ∈ p.2, q.2 = ([] : List String) := by
    unfold reorganize_log
    refine foldl_preserve
      (fun res : LogResults => ∀ p ∈ res, ∀ q ∈ p.2, q.2 = ([] : List String)) _ ?_ d [] ?_
    · intro res p hres
      exact reorganizeStep_values BC TD allB allT res p hres
    · intro p hp
      cases hp
  refine ⟨hinv, ?_, ?_⟩
  · unfold print_log print_log_no_extra
    refine congrArg (fun l : List (List String) => List.drop 1 l.flatten) ?_
    apply List.map_congr_left
    intro p hp
    congr 1
    have : p.2.map (fun q =>
        ["  - " ++ q.1] ++ (if q.2 ≠ [] then ["    - failed tests: " ++ pyStrListRepr q.2] else []))
        = p.2.map (fun q => ["  - " ++ q.1]) := by
      apply List.map_congr_left
      intro q hq
      rw [if_neg (by simp [hinv p hp q hq])]
      simp
    rw [this]
    clear this
    induction p.2 with
    | nil => rfl
    | cons q t ih => simp [ih]
  · intro sc ls j p hp
    have hent : format_entries sc ls p.2 = pySetOfList (p.2.map (fun q => q.1 ++ ls)) := by
      unfold format_entries
      congr 1
      apply List.map_congr_left
      intro q hq
      unfold renderEntry
      rw [if_pos (by simp [hinv p hp q hq])]
    simp only [format_result, format_result_simple, hent]

/-- C9 witness: on a concrete one-failure input the aggregated entry's
failed-test list is empty. -/
theorem c9_no_failed_tests_witness :
    ("[BUILD] [ERROR] [x]", ([] : List String)) ∈
        (alookup (reorganize_log ["os"] (fun _ => none)
          [("app", ⟨[["x"]], [], [], []⟩)] [["x"]] []) "app").getD [] ∧
    ("[BUILD] [ERROR] [x]", ([] : List String)).2 = [] :=
  ⟨by decide,
    (c9_no_failed_tests ["os"] (fun _ => none) [("app", ⟨[["x"]], [], [], []⟩)] [["x"]] []).1
      ("app", [("[BUILD] [ERROR] [x]", [])]) (by decide) _ (by decide)⟩

/-! ## Claim C10: table row order -/

/-- C10: if `log_results` holds a `missing_log` entry, `print_table` emits
its row first, immediately after the two header lines, and the remaining
rows follow in ascending sorted order of test-application name (the sorted
key list is a permutation of the remaining keys, is sorted, and no longer
contains `missing_log`). -/
theorem c10_missing_log_first (lr : LogResults) (tw cw : Nat) (sc ls : String)
    (v : List (String × List String)) (hm : alookup lr MISSING_LOG = some v) :
    print_table lr tw cw sc ls
      = tableHeader1 tw cw sc :: tableHeader2 tw cw sc
        :: mkRow tw sc MISSING_LOG (format_result v sc ls cw)
        :: (sortedKeys (lr.filter (fun p => decide (p.1 ≠ MISSING_LOG)))).map
            (fun k => mkRow tw sc k (format_result
              ((alookup (lr.filter (fun p => decide (p.1 ≠ MISSING_LOG))) k).getD []) sc ls cw)) ∧
    (sortedKeys (lr.filter (fun p => decide (p.1 ≠ MISSING_LOG)))).Sorted pyStrLe ∧
    (sortedKeys (lr.filter (fun p => decide (p.1 ≠ MISSING_LOG)))).Perm
      ((lr.filter (fun p => decide (p.1 ≠ MISSING_LOG))).map Prod.fst) ∧
    MISSING_LOG ∉ sortedKeys (lr.filter (fun p => decide (p.1 ≠ MISSING_LOG))) := by
  refine ⟨?_, ?_, ?_, ?_⟩
  · simp only [print_table, hm]
    rfl
  · exact List.sorted_insertionSort pyStrLe _
  · exact List.perm_insertionSort pyStrLe _
  · intro h
    have h' : MISSING_LOG ∈ (lr.filter (fun p => decide (p.1 ≠ MISSING_LOG))).map Prod.fst :=
      (List.perm_insertionSort pyStrLe _).mem_iff.1 h
    rcases List.mem_map.1 h' with ⟨p, hp, hp1⟩
    have hne : p.1 ≠ MISSING_LOG := by
      have := (List.mem_filter.1 hp).2
      simpa using this
    exact hne hp1

/-- C10 witness: a concrete table with a `missing_log` entry and two other
applications given out of order renders the missing row third and the rest
sorted. -/
theorem c10_missing_log_first_witness :
    print_table [("missing_log", [("L1", [])]), ("b", [("L2", [])]), ("a", [("L3", [])])]
        0 0 " " ", "
      = [tableHeader1 0 0 " ", tableHeader2 0 0 " ",
         mkRow 0 " " MISSING_LOG (format_result [("L1", [])] " " ", " 0),
         mkRow 0 " " "a" (format_result [("L3", [])] " " ", " 0),
         mkRow 0 " " "b" (format_result [("L2", [])] " " ", " 0)] :=
  ((c10_missing_log_first
      [("missing_log", [("L1", [])]), ("b", [("L2", [])]), ("a", [("L3", [])])]
      0 0 " " ", " [("L1", [])] (by decide)).1).trans (by decide)

/-! ## Lemmas about `alookup`, `addField` and the scan loop -/

theorem foldl_preserve_mem {α σ : Type} (P : σ → Prop) (f : σ → α → σ) :
    ∀ (l : List α), (∀ s a, a ∈ l → P s → P (f s a)) → ∀ s, P s → P (List.foldl f s l) := by
  intro l
  induction l with
  | nil => intro _ s hs; exact hs
  | cons a t ih =>
    intro h s hs
    exact ih (fun s' b hb hs' => h s' b (List.mem_cons_of_mem a hb) hs') (f s a)
      (h s a (List.mem_cons_self a t) hs)

theorem alookup_append_some {β : Type} {d : List (String × β)} {k : String} {e : β}
    (h : alookup d k = some e) (l : List (String × β)) : alookup (d ++ l) k = some e := by
  induction d with
  | nil => simp [alookup] at h
  | cons p t ih =>
    by_cases hp : p.1 = k
    · rw [alookup, if_pos hp] at h
      rw [List.cons_append, alookup, if_pos hp]
      exact h
    · rw [alookup, if_neg hp] at h
      rw [List.cons_append, alookup, if_neg hp]
      exact ih h

theorem alookup_append_none {β : Type} {d : List (String × β)} {k : String}
    (h : alookup d k = none) (l : List (String × β)) : alookup (d ++ l) k = alookup l k := by
  induction d with
  | nil => rfl
  | cons p t ih =>
    by_cases hp : p.1 = k
    · rw [alookup, if_pos hp] at h
      cases h
    · rw [alookup, if_neg hp] at h
      rw [List.cons_append, alookup, if_neg hp]
      exact ih h

theorem alookup_map_update_self {β : Type} {d : List (String × β)} {a : String} {e : β}
    (upd : β → β) (h : alookup d a = some e) :
    alookup (d.map (fun p => if p.1 = a then (p.1, upd p.2) else p)) a = some (upd e) := by
  induction d with
  | nil => simp [alookup] at h
  | cons p t ih =>
    by_cases hp : p.1 = a
    · rw [alookup, if_pos hp] at h
      obtain rfl := Option.some.inj h
      simp [alookup, List.map_cons, hp]
    · rw [alookup, if_neg hp] at h
      simp only [List.map_cons, if_neg hp, alookup]
      exact ih h

theorem alookup_map_update_other {β : Type} {d : List (String × β)} {a k : String}
    (upd : β → β) (h : k ≠ a) :
    alookup (d.map (fun p => if p.1 = a then (p.1, upd p.2) else p)) k = alookup d k := by
  induction d with
  | nil => rfl
  | cons p t ih =>
    simp only [List.map_cons]
    by_cases hp : p.1 = a
    · have hpk : p.1 ≠ k := fun he => h (he.symm.trans hp)
      rw [if_pos hp]
      simp only [alookup]
      rw [if_neg hpk, if_neg hpk]
      exact ih
    · rw [if_neg hp]
      simp only [alookup]
      by_cases hk : p.1 = k
      · rw [if_pos hk, if_pos hk]
      · rw [if_neg hk, if_neg hk]
        exact ih

theorem addField_ne_nil (upd : AppEntry → AppEntry) (init : AppEntry)
    (d : LogData) (app : String) : addField upd init d app ≠ [] := by
  unfold addField
  split
  · rename_i e h
    intro hnil
    cases d with
    | nil => simp [alookup] at h
    | cons p t => simp at hnil
  · intro hnil
    rcases List.append_eq_nil.1 hnil with ⟨_, h2⟩
    cases h2

theorem alookup_addField_self (upd : AppEntry → AppEntry) (init : AppEntry)
    (d : LogData) (app : String) :
    alookup (addField upd init d app) app = some ((alookup d app).elim init upd) := by
  unfold addField
  rcases h : alookup d app with _ | e
  · rw [alookup_append_none h]
    simp [alookup]
  · rw [alookup_map_update_self upd h]
    rfl

theorem alookup_addField_other (upd : AppEntry → AppEntry) (init : AppEntry)
    (d : LogData) (app k : String) (hk : k ≠ app) :
    alookup (addField upd init d app) k = alookup d k := by
  unfold addField
  rcases h : alookup d app with _ | e
  · rcases h2 : alookup d k with _ | e2
    · rw [alookup_append_none h2]
      simp [alookup, Ne.symm hk]
    · rw [alookup_append_some h2]
  · rw [alookup_map_update_other upd hk]

/-- A build log that parsed with an empty `errors` dict only records its
configs in the universe. -/
theorem processBuildFile_clean (st : SummState) (star : String) (d : BuildParsed)
    (he : d.errors = []) :
    processBuildFile st (star, .parsed d)
      = { st with build_configs := st.build_configs ++ [get_configs_from_file_name star] } := by
  simp [processBuildFile, he]

/-- A test log that parsed with empty `errors`, `failures` and `flakiness`
dicts only records its configs in the universe. -/
theorem processTestFile_clean (st : SummState) (star : String) (d : TestParsed)
    (he : d.errors = []) (hf : d.failures = []) (hk : d.flakiness = []) :
    processTestFile st (star, .parsed d)
      = { st with test_configs := st.test_configs ++ [get_configs_from_file_name star] } := by
  simp [processTestFile, he, hf, hk]

/-! ## Claim C3: clean inputs return `(True, None)` -/

/-- C3: for every input directory in which no build log has an `errors`
entry, no test log has an `errors`, `failures` or `flakiness` entry, and no
log file contains the `__SUMMARY_MISSING__` sentinel, `summarize_logs`
returns `(True, None)`: success with no summary text (in every output
mode). -/
theorem c3_clean_success (BC : List String) (TD : String → Option String) (inp : Input)
    (markdown github_log : Bool)
    (hb : ∀ f ∈ inp.buildFiles, ∃ d, f.2 = FileContent.parsed d ∧ d.errors = [])
    (ht : ∀ f ∈ inp.testFiles, ∃ d, f.2 = FileContent.parsed d
      ∧ d.errors = [] ∧ d.failures = [] ∧ d.flakiness = []) :
    summarize_logs BC TD inp markdown github_log = (true, none) := by
  have hstep : (summState inp).success = true ∧ (summState inp).log_data = [] := by
    unfold summState
    refine foldl_preserve_mem
      (fun st : SummState => st.success = true ∧ st.log_data = []) _ _ ?_ _ ?_
    · intro s f hf hs
      rcases ht f hf with ⟨d, hf2, he, hfa, hk⟩
      rcases f with ⟨star, c⟩
      simp only at hf2
      subst hf2
      rw [processTestFile_clean s star d he hfa hk]
      exact hs
    · refine foldl_preserve_mem
        (fun st : SummState => st.success = true ∧ st.log_data = []) _ _ ?_ _ ?_
      · intro s f hf hs
        rcases hb f hf with ⟨d, hf2, he⟩
        rcases f with ⟨star, c⟩
        simp only at hf2
        subst hf2
        rw [processBuildFile_clean s star d he]
        exact hs
      · exact ⟨rfl, rfl⟩
  simp only [summarize_logs]
  rw [if_pos hstep, hstep.1]

/-- C3 witness: one clean build log and one clean test log yield
`(True, None)`. -/
theorem c3_clean_success_witness :
    summarize_logs ["os"] (fun _ => none)
      ⟨[("windows-openssl", .parsed ⟨[]⟩)], [("ubuntu-boringssl", .parsed ⟨[], [], []⟩)]⟩
      true false = (true, none) :=
  c3_clean_success ["os"] (fun _ => none)
    ⟨[("windows-openssl", .parsed ⟨[]⟩)], [("ubuntu-boringssl", .parsed ⟨[], [], []⟩)]⟩
    true false
    (by intro f hf; rcases List.mem_singleton.1 hf with rfl; exact ⟨⟨[]⟩, rfl, rfl⟩)
    (by intro f hf; rcases List.mem_singleton.1 hf with rfl; exact ⟨⟨[], [], []⟩, rfl, rfl, rfl, rfl⟩)

theorem addBuildCfg_ne_nil (d : LogData) (a : String) (v : ConfigVec) :
    addBuildCfg d a v ≠ [] := addField_ne_nil _ _ _ _

theorem addTestErrCfg_ne_nil (d : LogData) (a : String) (v : ConfigVec) :
    addTestErrCfg d a v ≠ [] := addField_ne_nil _ _ _ _

theorem addTestFailCfg_ne_nil (d : LogData) (a : String) (v : ConfigVec) :
    addTestFailCfg d a v ≠ [] := addField_ne_nil _ _ _ _

theorem addTestFlakyCfg_ne_nil (d : LogData) (a : String) (v : ConfigVec) :
    addTestFlakyCfg d a v ≠ [] := addField_ne_nil _ _ _ _

/-- A test log with empty `errors` and `failures` dicts never flips the
success flag (flakiness entries leave it untouched). -/
theorem processTestFile_success_flaky (st : SummState) (star : String) (d : TestParsed)
    (he : d.errors = []) (hf : d.failures = []) :
    (processTestFile st (star, .parsed d)).success = st.success := by
  simp only [processTestFile, he, hf, List.foldl_nil]
  refine foldl_preserve (fun s : SummState => s.success = st.success) _ ?_ d.flakiness _ rfl
  intro s a hs
  exact hs

/-- Processing a parsed test log with a non-empty `flakiness` dict leaves a
non-empty `log_data`. -/
theorem processTestFile_flaky_ne (st : SummState) (star : String) (d : TestParsed)
    (hk : d.flakiness ≠ []) :
    (processTestFile st (star, .parsed d)).log_data ≠ [] := by
  simp only [processTestFile]
  generalize d.failures.foldl _ (d.errors.foldl _ _) = s0
  obtain ⟨a, t, hat⟩ := List.exists_cons_of_ne_nil hk
  rw [hat]
  clear hat hk
  induction t generalizing s0 a with
  | nil =>
    simp only [List.foldl_cons, List.foldl_nil]
    exact addTestFlakyCfg_ne_nil _ _ _
  | cons b u ih =>
    rw [List.foldl_cons]
    exact ih _ _

/-- Every processing step keeps `log_data` non-empty. -/
theorem processTestFile_ne (st : SummState) (f : String × FileContent TestParsed)
    (h : st.log_data ≠ []) : (processTestFile st f).log_data ≠ [] := by
  rcases f with ⟨star, c⟩
  rcases c with _ | d
  · simp only [processTestFile]
    exact addTestErrCfg_ne_nil _ _ _
  · simp only [processTestFile]
    refine foldl_preserve (fun s : SummState => s.log_data ≠ []) _ ?_ _ _ ?_
    · intro s a hs
      exact addTestFlakyCfg_ne_nil _ _ _
    refine foldl_preserve (fun s : SummState => s.log_data ≠ []) _ ?_ _ _ ?_
    · intro s a hs
      exact addTestFailCfg_ne_nil _ _ _
    refine foldl_preserve (fun s : SummState => s.log_data ≠ []) _ ?_ _ _ ?_
    · intro s a hs
      exact addTestErrCfg_ne_nil _ _ _
    exact h

/-! ## Claim C8: flakiness-only inputs succeed but still print a summary -/

/-- C8: for every input whose test logs contain at least one `flakiness`
entry and no `errors` or `failures` entry anywhere, and no sentinel,
`summarize_logs` returns success `True` paired with a summary text
(not `None`): flakiness does not fail the run, yet it is summarized. -/
theorem c8_flakiness_success (BC : List String) (TD : String → Option String)
    (inp : Input) (markdown github_log : Bool)
    (hb : ∀ f ∈ inp.buildFiles, ∃ d, f.2 = FileContent.parsed d ∧ d.errors = [])
    (ht : ∀ f ∈ inp.testFiles, ∃ d, f.2 = FileContent.parsed d
      ∧ d.errors = [] ∧ d.failures = [])
    (hfl : ∃ f ∈ inp.testFiles, ∃ d, f.2 = FileContent.parsed d ∧ d.flakiness ≠ []) :
    (summarize_logs BC TD inp markdown github_log).1 = true ∧
    (summarize_logs BC TD inp markdown github_log).2 ≠ none := by
  have hsuc : (summState inp).success = true := by
    unfold summState
    refine foldl_preserve_mem (fun st : SummState => st.success = true) _ _ ?_ _ ?_
    · intro s f hf hs
      rcases ht f hf with ⟨d, hf2, he, hfa⟩
      rcases f with ⟨star, c⟩
      simp only at hf2
      subst hf2
      rw [processTestFile_success_flaky s star d he hfa]
      exact hs
    · refine foldl_preserve_mem (fun st : SummState => st.success = true) _ _ ?_ _ ?_
      · intro s f hf hs
        rcases hb f hf with ⟨d, hf2, he⟩
        rcases f with ⟨star, c⟩
        simp only at hf2
        subst hf2
        rw [processBuildFile_clean s star d he]
        exact hs
      · rfl
  have hne : (summState inp).log_data ≠ [] := by
    rcases hfl with ⟨f, hf, d, hf2, hk⟩
    rcases List.append_of_mem hf with ⟨l1, l2, hl⟩
    unfold summState
    rw [hl, List.foldl_append, List.foldl_cons]
    refine foldl_preserve (fun st : SummState => st.log_data ≠ []) _ ?_ l2 _ ?_
    · intro s a hs
      exact processTestFile_ne s a hs
    rcases f with ⟨star, c⟩
    simp only at hf2
    subst hf2
    exact processTestFile_flaky_ne _ star d hk
  constructor
  · simp only [summarize_logs]
    rw [if_neg (fun hcon => hne hcon.2)]
    exact hsuc
  · simp only [summarize_logs]
    rw [if_neg (fun hcon => hne hcon.2)]
    simp

/-- C8 witness: a single test log with one flaky test application returns
success together with a summary. -/
theorem c8_flakiness_success_witness :
    (summarize_logs ["os"] (fun _ => none)
      ⟨[], [("ubuntu-openssl", .parsed ⟨[], [], ["messaging"]⟩)]⟩ true false).1 = true ∧
    (summarize_logs ["os"] (fun _ => none)
      ⟨[], [("ubuntu-openssl", .parsed ⟨[], [], ["messaging"]⟩)]⟩ true false).2 ≠ none :=
  c8_flakiness_success ["os"] (fun _ => none)
    ⟨[], [("ubuntu-openssl", .parsed ⟨[], [], ["messaging"]⟩)]⟩ true false
    (by intro f hf; cases hf)
    (by intro f hf; rcases List.mem_singleton.1 hf with rfl; exact ⟨⟨[], [], ["messaging"]⟩, rfl, rfl, rfl⟩)
    ⟨("ubuntu-openssl", .parsed ⟨[], [], ["messaging"]⟩), List.mem_singleton.2 rfl,
      ⟨[], [], ["messaging"]⟩, rfl, by decide⟩

/-! ## Lemmas for claim C4: the missing-log sentinel -/

theorem processBuildFile_success_false (st : SummState) (f : String × FileContent BuildParsed)
    (h : st.success = false) : (processBuildFile st f).success = false := by
  rcases f with ⟨star, c⟩
  rcases c with _ | d
  · rfl
  · simp only [processBuildFile]
    refine foldl_preserve (fun s : SummState => s.success = false) _ ?_ _ _ ?_
    · intro s a _
      rfl
    · exact h

theorem processTestFile_success_false (st : SummState) (f : String × FileContent TestParsed)
    (h : st.success = false) : (processTestFile st f).success = false := by
  rcases f with ⟨star, c⟩
  rcases c with _ | d
  · rfl
  · simp only [processTestFile]
    refine foldl_preserve (fun s : SummState => s.success = false) _ ?_ _ _ ?_
    · intro s a hs
      exact hs
    refine foldl_preserve (fun s : SummState => s.success = false) _ ?_ _ _ ?_
    · intro s a _
      rfl
    refine foldl_preserve (fun s : SummState => s.success = false) _ ?_ _ _ ?_
    · intro s a _
      rfl
    · exact h

/-- `addField` preserves membership of a fixed config in a fixed field of the
`missing_log` entry, provided the update map can only grow that field. -/
theorem addField_mem_pres {cfg : ConfigVec} (F : AppEntry → List ConfigVec)
    (upd : AppEntry → AppEntry) (init : AppEntry) (d : LogData) (a : String)
    (hupd : ∀ e, cfg ∈ F e → cfg ∈ F (upd e))
    (h : ∃ e, alookup d MISSING_LOG = some e ∧ cfg ∈ F e) :
    ∃ e, alookup (addField upd init d a) MISSING_LOG = some e ∧ cfg ∈ F e := by
  rcases h with ⟨e, he, hm⟩
  by_cases hk : MISSING_LOG = a
  · subst hk
    refine ⟨(alookup d MISSING_LOG).elim init upd, alookup_addField_self upd init d MISSING_LOG, ?_⟩
    rw [he]
    exact hupd e hm
  · rw [alookup_addField_other upd init d a MISSING_LOG hk]
    exact ⟨e, he, hm⟩

theorem processBuildFile_pres_build {cfg : ConfigVec} (st : SummState)
    (f : String × FileContent BuildParsed)
    (h : ∃ e, alookup st.log_data MISSING_LOG = some e ∧ cfg ∈ e.build) :
    ∃ e, alookup (processBuildFile st f).log_data MISSING_LOG = some e ∧ cfg ∈ e.build := by
  rcases f with ⟨star, c⟩
  rcases c with _ | d
  · simp only [processBuildFile, addBuildCfg]
    refine addField_mem_pres (fun e => e.build) _ _ _ _ ?_ h
    intro e hm
    exact List.mem_append_left _ hm
  · simp only [processBuildFile, addBuildCfg]
    refine foldl_preserve
      (fun s : SummState => ∃ e, alookup s.log_data MISSING_LOG = some e ∧ cfg ∈ e.build)
      _ ?_ _ _ ?_
    · intro s a hs
      dsimp only
      refine addField_mem_pres (fun e => e.build) _ _ _ _ ?_ hs
      intro e hm
      exact List.mem_append_left _ hm
    · exact h

theorem processTestFile_pres_build {cfg : ConfigVec} (st : SummState)
    (f : String × FileContent TestParsed)
    (h : ∃ e, alookup st.log_data MISSING_LOG = some e ∧ cfg ∈ e.build) :
    ∃ e, alookup (processTestFile st f).log_data MISSING_LOG = some e ∧ cfg ∈ e.build := by
  rcases f with ⟨star, c⟩
  rcases c with _ | d
  · simp only [processTestFile, addTestErrCfg]
    refine addField_mem_pres (fun e => e.build) _ _ _ _ ?_ h
    intro e hm
    exact hm
  · simp only [processTestFile, addTestErrCfg, addTestFailCfg, addTestFlakyCfg]
    refine foldl_preserve
      (fun s : SummState => ∃ e, alookup s.log_data MISSING_LOG = some e ∧ cfg ∈ e.build)
      _ ?_ _ _ ?_
    · intro s a hs
      dsimp only
      refine addField_mem_pres (fun e => e.build) _ _ _ _ ?_ hs
      intro e hm
      exact hm
    refine foldl_preserve
      (fun s : SummState => ∃ e, alookup s.log_data MISSING_LOG = some e ∧ cfg ∈ e.build)
      _ ?_ _ _ ?_
    · intro s a hs
      dsimp only
      refine addField_mem_pres (fun e => e.build) _ _ _ _ ?_ hs
      intro e hm
      exact hm
    refine foldl_preserve
      (fun s : SummState => ∃ e, alookup s.log_data MISSING_LOG = some e ∧ cfg ∈ e.build)
      _ ?_ _ _ ?_
    · intro s a hs
      dsimp only
      refine addField_mem_pres (fun e => e.build) _ _ _ _ ?_ hs
      intro e hm
      exact hm
    · exact h

theorem processTestFile_pres_testErr {cfg : ConfigVec} (st : SummState)
    (f : String × FileContent TestParsed)
    (h : ∃ e, alookup st.log_data MISSING_LOG = some e ∧ cfg ∈ e.testErrors) :
    ∃ e, alookup (processTestFile st f).log_data MISSING_LOG = some e ∧ cfg ∈ e.testErrors := by
  rcases f with ⟨star, c⟩
  rcases c with _ | d
  · simp only [processTestFile, addTestErrCfg]
    refine addField_mem_pres (fun e => e.testErrors) _ _ _ _ ?_ h
    intro e hm
    exact List.mem_append_left _ hm
  · simp only [processTestFile, addTestErrCfg, addTestFailCfg, addTestFlakyCfg]
    refine foldl_preserve
      (fun s : SummState => ∃ e, alookup s.log_data MISSING_LOG = some e ∧ cfg ∈ e.testErrors)
      _ ?_ _ _ ?_
    · intro s a hs
      dsimp only
      refine addField_mem_pres (fun e => e.testErrors) _ _ _ _ ?_ hs
      intro e hm
      exact hm
    refine foldl_preserve
      (fun s : SummState => ∃ e, alookup s.log_data MISSING_LOG = some e ∧ cfg ∈ e.testErrors)
      _ ?_ _ _ ?_
    · intro s a hs
      dsimp only
      refine addField_mem_pres (fun e => e.testErrors) _ _ _ _ ?_ hs
      intro e hm
      exact hm
    refine foldl_preserve
      (fun s : SummState => ∃ e, alookup s.log_data MISSING_LOG = some e ∧ cfg ∈ e.testErrors)
      _ ?_ _ _ ?_
    · intro s a hs
      dsimp only
      refine addField_mem_pres (fun e => e.testErrors) _ _ _ _ ?_ hs
      intro e hm
      exact List.mem_append_left _ hm
    · exact h

/-- Processing a build log holding the sentinel records its config vector
under `missing_log`'s `build` list. -/
theorem processBuildFile_missing_mem (st : SummState) (star : String) :
    ∃ e, alookup (processBuildFile st (star, FileContent.missing)).log_data MISSING_LOG = some e
      ∧ get_configs_from_file_name star ∈ e.build := by
  simp only [processBuildFile, addBuildCfg]
  rcases halt : alookup st.log_data MISSING_LOG with _ | e
  · refine ⟨_, alookup_addField_self _ _ _ MISSING_LOG, ?_⟩
    rw [halt]
    exact List.mem_singleton.2 rfl
  · refine ⟨_, alookup_addField_self _ _ _ MISSING_LOG, ?_⟩
    rw [halt]
    exact List.mem_append_right _ (List.mem_singleton.2 rfl)

/-- Processing a test log holding the sentinel records its config vector
under `missing_log`'s test-`errors` list. -/
theorem processTestFile_missing_mem (st : SummState) (star : String) :
    ∃ e, alookup (processTestFile st (star, FileContent.missing)).log_data MISSING_LOG = some e
      ∧ get_configs_from_file_name star ∈ e.testErrors := by
  simp only [processTestFile, addTestErrCfg]
  rcases halt : alookup st.log_data MISSING_LOG with _ | e
  · refine ⟨_, alookup_addField_self _ _ _ MISSING_LOG, ?_⟩
    rw [halt]
    exact List.mem_singleton.2 rfl
  · refine ⟨_, alookup_addField_self _ _ _ MISSING_LOG, ?_⟩
    rw [halt]
    exact List.mem_append_right _ (List.mem_singleton.2 rfl)

theorem alookup_addLabel_self (res : LogResults) (a lbl : String) :
    (alookup (addLabel res a lbl) a).isSome := by
  unfold addLabel
  split
  · rename_i h
    rw [alookup_append_none h]
    simp [alookup]
  · rename_i inner h
    split
    · rw [h]
      rfl
    · rw [alookup_map_update_self (fun i => i ++ [(lbl, [])]) h]
      rfl

theorem alookup_addLabel_pres (res : LogResults) (a lbl k : String)
    (h : (alookup res k).isSome) : (alookup (addLabel res a lbl) k).isSome := by
  by_cases hk : k = a
  · subst hk
    exact alookup_addLabel_self res k lbl
  · unfold addLabel
    split
    · rename_i hnone
      rcases Option.isSome_iff_exists.1 h with ⟨e, he⟩
      rw [alookup_append_some he]
      rfl
    · rename_i inner hsome
      split
      · exact h
      · rw [alookup_map_update_other (fun i => i ++ [(lbl, [])]) hk]
        exact h

theorem reorganizeStep_pres_missing (BC : List String) (TD : String → Option String)
    (allB allT : List PySet) (res : LogResults) (p : String × AppEntry)
    (h : (alookup res MISSING_LOG).isSome) :
    (alookup (reorganizeStep BC TD allB allT res p) MISSING_LOG).isSome := by
  unfold reorganizeStep
  have step : ∀ (r : LogResults) (b : Prop) [Decidable b] (lbl : String),
      (alookup r MISSING_LOG).isSome →
      (alookup (if b then addLabel r p.1 lbl else r) MISSING_LOG).isSome := by
    intro r b _ lbl hr
    split
    · exact alookup_addLabel_pres r p.1 lbl MISSING_LOG hr
    · exact hr
  exact step _ _ _ (step _ _ _ (step _ _ _ (step _ _ _ h)))

theorem reorganizeStep_estab (BC : List String) (TD : String → Option String)
    (allB allT : List PySet) (res : LogResults) (p : String × AppEntry)
    (h : p.2.build ≠ [] ∨ p.2.testErrors ≠ []) :
    (alookup (reorganizeStep BC TD allB allT res p) p.1).isSome := by
  simp only [reorganizeStep]
  have step : ∀ (r : LogResults) (b : Prop) [Decidable b] (lbl : String),
      (alookup r p.1).isSome →
      (alookup (if b then addLabel r p.1 lbl else r) p.1).isSome := by
    intro r b _ lbl hr
    split
    · exact alookup_addLabel_pres r p.1 lbl p.1 hr
    · exact hr
  rcases h with h | h
  · rw [if_pos h]
    exact step _ _ _ (step _ _ _ (step _ _ _ (alookup_addLabel_self _ _ _)))
  · rw [if_pos h]
    exact step _ _ _ (step _ _ _ (alookup_addLabel_self _ _ _))

/-- If `log_data` holds a `missing_log` entry with a non-empty build or
test-error list, the aggregated `log_results` holds a `missing_log` key. -/
theorem reorganize_log_missing (BC : List String) (TD : String → Option String)
    (d : LogData) (allB allT : List PySet)
    (h : ∃ e, alookup d MISSING_LOG = some e ∧ (e.build ≠ [] ∨ e.testErrors ≠ [])) :
    (alookup (reorganize_log BC TD d allB allT) MISSING_LOG).isSome := by
  unfold reorganize_log
  have hs : ∀ (d : LogData) (res : LogResults),
      (∃ e, alookup d MISSING_LOG = some e ∧ (e.build ≠ [] ∨ e.testErrors ≠ [])) →
      (alookup (d.foldl (reorganizeStep BC TD allB allT) res) MISSING_LOG).isSome := by
    intro d
    induction d with
    | nil =>
      rintro res ⟨e, he, _⟩
      simp [alookup] at he
    | cons p t ih =>
      rintro res ⟨e, he, hne⟩
      rw [List.foldl_cons]
      by_cases hp : p.1 = MISSING_LOG
      · rw [alookup, if_pos hp] at he
        obtain rfl := Option.some.inj he
        refine foldl_preserve (fun r : LogResults => (alookup r MISSING_LOG).isSome) _ ?_ t _ ?_
        · intro r a hr
          exact reorganizeStep_pres_missing BC TD allB allT r a hr
        · have hest := reorganizeStep_estab BC TD allB allT res p hne
          rw [hp] at hest
          exact hest
      · rw [alookup, if_neg hp] at he
        exact ih _ ⟨e, he, hne⟩
  exact hs d [] h

/-- Shared tail of the C4 argument: a false success flag plus a recorded
`missing_log` failure puts a `missing_log` row into the Markdown summary. -/
theorem summarize_missing_conclude (BC : List String) (TD : String → Option String) (inp : Input)
    (hsuc : (summState inp).success = false)
    (hne2 : ∃ e, alookup (summState inp).log_data MISSING_LOG = some e
      ∧ (e.build ≠ [] ∨ e.testErrors ≠ [])) :
    (summarize_logs BC TD inp true false).1 = false ∧
    ∃ s, (summarize_logs BC TD inp true false).2 = some s
      ∧ StrContains s MISSING_LOG = true := by
  have hcond : ¬((summState inp).success = true ∧ (summState inp).log_data = []) := by
    intro hcon
    rw [hsuc] at hcon
    exact absurd hcon.1 (by decide)
  constructor
  · simp only [summarize_logs]
    rw [if_neg hcond]
    exact hsuc
  · have hkey := reorganize_log_missing BC TD (summState inp).log_data
      (reorganize_configs BC (summState inp).build_configs)
      (reorganize_configs BC (summState inp).test_configs) hne2
    obtain ⟨inner, hinner⟩ := Option.isSome_iff_exists.1 hkey
    simp only [summarize_logs]
    rw [if_neg hcond]
    refine ⟨_, rfl, ?_⟩
    rw [if_pos trivial]
    simp only [print_markdown_table, print_table, hinner]
    have hrow : StrContains
        (mkRow 0 "&nbsp;" MISSING_LOG (format_result inner "&nbsp;" "<br/>" 0))
        MISSING_LOG = true := by
      unfold mkRow
      rw [(by decide : subWS "&nbsp;" (ljust MISSING_LOG 0) = MISSING_LOG)]
      exact StrContains_append_left _ (StrContains_append_left _ (StrContains_append_left _
        (StrContains_append_right _ (StrContains_self MISSING_LOG))))
    exact StrContains_pyJoin "\n" _ (by simp) hrow

/-- Every build log holding the sentinel ends with its config vector in the
final `missing_log` entry's `build` list. -/
theorem summState_mem_build (inp : Input) (f : String × FileContent BuildParsed)
    (hf : f ∈ inp.buildFiles) (hmiss : f.2 = FileContent.missing) :
    ∃ e, alookup (summState inp).log_data MISSING_LOG = some e
      ∧ get_configs_from_file_name f.1 ∈ e.build := by
  rcases List.append_of_mem hf with ⟨l1, l2, hl⟩
  unfold summState
  rw [hl, List.foldl_append, List.foldl_cons]
  refine foldl_preserve (fun st : SummState => ∃ e,
    alookup st.log_data MISSING_LOG = some e ∧ get_configs_from_file_name f.1 ∈ e.build)
    _ ?_ inp.testFiles _ ?_
  · intro s a hs
    exact processTestFile_pres_build s a hs
  refine foldl_preserve (fun st : SummState => ∃ e,
    alookup st.log_data MISSING_LOG = some e ∧ get_configs_from_file_name f.1 ∈ e.build)
    _ ?_ l2 _ ?_
  · intro s a hs
    exact processBuildFile_pres_build s a hs
  · rcases f with ⟨star, c⟩
    simp only at hmiss
    subst hmiss
    exact processBuildFile_missing_mem _ star

/-- Every test log holding the sentinel ends with its config vector in the
final `missing_log` entry's test-`errors` list. -/
theorem summState_mem_testErr (inp : Input) (f : String × FileContent TestParsed)
    (hf : f ∈ inp.testFiles) (hmiss : f.2 = FileContent.missing) :
    ∃ e, alookup (summState inp).log_data MISSING_LOG = some e
      ∧ get_configs_from_file_name f.1 ∈ e.testErrors := by
  rcases List.append_of_mem hf with ⟨l1, l2, hl⟩
  unfold summState
  rw [hl, List.foldl_append, List.foldl_cons]
  refine foldl_preserve (fun st : SummState => ∃ e,
    alookup st.log_data MISSING_LOG = some e ∧ get_configs_from_file_name f.1 ∈ e.testErrors)
    _ ?_ l2 _ ?_
  · intro s a hs
    exact processTestFile_pres_testErr s a hs
  · rcases f with ⟨star, c⟩
    simp only at hmiss
    subst hmiss
    exact processTestFile_missing_mem _ star

theorem summState_missing_success_build (inp : Input) (f : String × FileContent BuildParsed)
    (hf : f ∈ inp.buildFiles) (hmiss : f.2 = FileContent.missing) :
    (summState inp).success = false := by
  rcases List.append_of_mem hf with ⟨l1, l2, hl⟩
  unfold summState
  rw [hl, List.foldl_append, List.foldl_cons]
  refine foldl_preserve (fun st : SummState => st.success = false) _ ?_ inp.testFiles _ ?_
  · intro s a hs
    exact processTestFile_success_false s a hs
  refine foldl_preserve (fun st : SummState => st.success = false) _ ?_ l2 _ ?_
  · intro s a hs
    exact processBuildFile_success_false s a hs
  · rcases f with ⟨star, c⟩
    simp only at hmiss
    subst hmiss
    rfl

theorem summState_missing_success_test (inp : Input) (f : String × FileContent TestParsed)
    (hf : f ∈ inp.testFiles) (hmiss : f.2 = FileContent.missing) :
    (summState inp).success = false := by
  rcases List.append_of_mem hf with ⟨l1, l2, hl⟩
  unfold summState
  rw [hl, List.foldl_append, List.foldl_cons]
  refine foldl_preserve (fun st : SummState => st.success = false) _ ?_ l2 _ ?_
  · intro s a hs
    exact processTestFile_success_false s a hs
  · rcases f with ⟨star, c⟩
    simp only at hmiss
    subst hmiss
    rfl

/-! ## Claim C4: the missing-log sentinel is a first-class failure -/

/-- C4: for every input in which some log file contains the
`__SUMMARY_MISSING__` sentinel, `summarize_logs` records, for **every**
sentinel file, that file's configuration vector under the single
`missing_log` entry (`build` list for build logs, test-`errors` list for
test logs), the success flag of the returned pair is `False`, and the
rendered Markdown summary is returned normally and contains the
`missing_log` row alongside the other failure rows. -/
theorem c4_missing_sentinel (BC : List String) (TD : String → Option String) (inp : Input)
    (h : (∃ f ∈ inp.buildFiles, f.2 = FileContent.missing)
      ∨ (∃ f ∈ inp.testFiles, f.2 = FileContent.missing)) :
    (summarize_logs BC TD inp true false).1 = false ∧
    (∃ e, alookup (summState inp).log_data MISSING_LOG = some e ∧
      (∀ f ∈ inp.buildFiles, f.2 = FileContent.missing
        → get_configs_from_file_name f.1 ∈ e.build) ∧
      (∀ f ∈ inp.testFiles, f.2 = FileContent.missing
        → get_configs_from_file_name f.1 ∈ e.testErrors)) ∧
    ∃ s, (summarize_logs BC TD inp true false).2 = some s
      ∧ StrContains s MISSING_LOG = true := by
  have hkey : ∃ e, alookup (summState inp).log_data MISSING_LOG = some e
      ∧ (e.build ≠ [] ∨ e.testErrors ≠ []) := by
    rcases h with ⟨f, hf, hmiss⟩ | ⟨f, hf, hmiss⟩
    · obtain ⟨e, he, hm⟩ := summState_mem_build inp f hf hmiss
      exact ⟨e, he, Or.inl (List.ne_nil_of_mem hm)⟩
    · obtain ⟨e, he, hm⟩ := summState_mem_testErr inp f hf hmiss
      exact ⟨e, he, Or.inr (List.ne_nil_of_mem hm)⟩
  have hsuc : (summState inp).success = false := by
    rcases h with ⟨f, hf, hmiss⟩ | ⟨f, hf, hmiss⟩
    · exact summState_missing_success_build inp f hf hmiss
    · exact summState_missing_success_test inp f hf hmiss
  obtain ⟨e, he, hne2⟩ := hkey
  have hconc := summarize_missing_conclude BC TD inp hsuc ⟨e, he, hne2⟩
  refine ⟨hconc.1, ⟨e, he, ?_, ?_⟩, hconc.2⟩
  · intro f hf hmiss
    obtain ⟨e2, he2, hm⟩ := summState_mem_build inp f hf hmiss
    obtain rfl := Option.some.inj (he2.symm.trans he)
    exact hm
  · intro f hf hmiss
    obtain ⟨e2, he2, hm⟩ := summState_mem_testErr inp f hf hmiss
    obtain rfl := Option.some.inj (he2.symm.trans he)
    exact hm

/-- C4 witness: a single build log holding the sentinel makes the run fail. -/
theorem c4_missing_sentinel_witness :
    (summarize_logs ["os"] (fun _ => none)
      ⟨[("windows-openssl", FileContent.missing)], []⟩ true false).1 = false :=
  (c4_missing_sentinel ["os"] (fun _ => none)
    ⟨[("windows-openssl", FileContent.missing)], []⟩
    (Or.inl ⟨("windows-openssl", FileContent.missing), List.mem_singleton.2 rfl, rfl⟩)).1

/-! ## Lemmas for claim C7: a single failing configuration -/

theorem pySetOfList_single (x : String) : pySetOfList [x] = [x] := by
  simp [pySetOfList, pySetAdd]

theorem reorganize_configs_single (BC : List String) (v : ConfigVec) :
    reorganize_configs BC [v] = (List.range BC.length).map (fun j => [v.getD j ""]) := by
  unfold reorganize_configs
  rw [if_neg (by simp)]
  have hmap : (List.range BC.length).map (fun j => pySetOfList ([v].map (fun c => c.getD j "")))
      = (List.range BC.length).map (fun j => [v.getD j ""]) := by
    apply List.map_congr_left
    intro j _
    rw [List.map_singleton, pySetOfList_single]
  rw [hmap]
  rw [List.filter_eq_self.2]
  intro s hs
  rcases List.mem_map.1 hs with ⟨j, _, rfl⟩
  simp

theorem getD_map_range {α : Type} (f : Nat → α) (n i : Nat) (d : α) (h : i < n) :
    ((List.range n).map f).getD i d = f i := by
  rw [List.getD_eq_getElem?_getD, List.getElem?_map, List.getElem?_range h]
  rfl

theorem combine_configs_self_singles (BC : List String) (TD : String → Option String)
    (L : List PySet) (hL : ∀ i, i < L.length → ∃ x, L.getD i [] = [x]) :
    combine_configs BC TD L L = L := by
  unfold combine_configs
  have hcongr : (List.range L.length).map
      (fun i => combine_config BC TD (L.getD i []) (L.getD i []) i)
      = (List.range L.length).map (fun i => L.getD i []) := by
    apply List.map_congr_left
    intro i hi
    rcases hL i (List.mem_range.1 hi) with ⟨x, hx⟩
    rw [hx]
    exact combine_config_refl_small BC TD [x] i (by simp)
  rw [hcongr, range_map_getD]

/-- Aggregating a single config vector against itself leaves each axis as its
bare singleton value. -/
theorem combine_configs_single_self (BC : List String) (TD : String → Option String)
    (v : ConfigVec) :
    combine_configs BC TD (reorganize_configs BC [v]) (reorganize_configs BC [v])
      = reorganize_configs BC [v] := by
  rw [reorganize_configs_single]
  apply combine_configs_self_singles
  intro i hi
  rw [List.length_map, List.length_range] at hi
  exact ⟨v.getD i "", getD_map_range _ _ _ _ hi⟩

theorem StrContains_join_two (sep a b : String) (r : List String) :
    StrContains (pyJoin sep (a :: b :: r)) (a ++ sep ++ b) = true := by
  rw [pyJoin_cons]
  cases r with
  | nil => exact StrContains_self _
  | cons c u =>
    rw [pyJoin_cons]
    have hassoc : (a ++ sep) ++ (b ++ sep ++ pyJoin sep (c :: u))
        = ((a ++ sep ++ b) ++ (sep ++ pyJoin sep (c :: u))) := by
      apply String.ext
      simp [String.data_append]
    rw [hassoc]
    exact StrContains_append_left _ (StrContains_self _)

/-- The label of a single failing config starts with its two category
markers. -/
theorem mkLabel_single_contains (BC : List String) (TD : String → Option String)
    (c1 c2 : String) (v : ConfigVec) :
    StrContains (mkLabel BC TD c1 c2 [v] (reorganize_configs BC [v]))
      (pyListRepr [c1] ++ " " ++ pyListRepr [c2]) = true := by
  unfold mkLabel
  rw [combine_configs_single_self]
  unfold flat_config
  rw [List.map_append]
  exact StrContains_join_two " " (pyListRepr [c1]) (pyListRepr [c2]) _

/-- A cell holding a single config label with no failed tests renders as the
label followed by the list separator. -/
theorem format_result_single (lbl sc ls : String) :
    format_result [(lbl, [])] sc ls 0 = lbl ++ ls := by
  have hre : renderEntry sc ls (lbl, []) = lbl ++ ls := by
    simp [renderEntry]
  simp only [format_result, format_entries, List.map_cons, List.map_nil, hre,
    pySetOfList_single]
  rw [if_neg (by simp [LIST_MAX])]
  rw [pySorted_single, ljust_zero]
  rfl

/-- Rendering a one-application, one-label aggregate: both the Markdown table
and the plain log name the application and contain the label's needle. -/
theorem single_outputs_contain (BC : List String) (TD : String → Option String)
    (t lbl : String) (ht : ∀ c ∈ t.data, c ≠ ' ')
    (inp : Input) (hne : (summState inp).log_data ≠ [])
    (hlr : reorganize_log BC TD (summState inp).log_data
      (reorganize_configs BC (summState inp).build_configs)
      (reorganize_configs BC (summState inp).test_configs) = [(t, [(lbl, [])])])
    (needle : String) (hneedle : StrContains lbl needle = true) :
    ∃ m l, (summarize_logs BC TD inp true false).2 = some m
      ∧ (summarize_logs BC TD inp false false).2 = some l
      ∧ StrContains m t = true ∧ StrContains m needle = true
      ∧ StrContains l t = true ∧ StrContains l needle = true := by
  have hcond : ¬((summState inp).success = true ∧ (summState inp).log_data = []) :=
    fun hcon => hne hcon.2
  have hcell : format_result [(lbl, [])] "&nbsp;" "<br/>" 0 = lbl ++ "<br/>" :=
    format_result_single lbl _ _
  have hrowt : StrContains (mkRow 0 "&nbsp;" t (format_result [(lbl, [])] "&nbsp;" "<br/>" 0))
      t = true := by
    unfold mkRow
    rw [ljust_zero, subWS_no_space _ ht]
    exact StrContains_append_left _ (StrContains_append_left _ (StrContains_append_left _
      (StrContains_append_right _ (StrContains_self t))))
  have hrown : StrContains (mkRow 0 "&nbsp;" t (format_result [(lbl, [])] "&nbsp;" "<br/>" 0))
      needle = true := by
    unfold mkRow
    rw [hcell]
    exact StrContains_append_left _ (StrContains_append_right _
      (StrContains_append_left _ hneedle))
  have htable : print_markdown_table [(t, [(lbl, [])])]
      = [tableHeader1 0 0 "&nbsp;", tableHeader2 0 0 "&nbsp;",
         mkRow 0 "&nbsp;" t (format_result [(lbl, [])] "&nbsp;" "<br/>" 0)] := by
    by_cases hT : t = MISSING_LOG
    · subst hT
      simp only [print_markdown_table, print_table]
      rw [show alookup [(MISSING_LOG, [(lbl, [])])] MISSING_LOG = some [(lbl, [])] from
        by simp [alookup]]
      simp [sortedKeys, pySorted, alookup]
    · simp only [print_markdown_table, print_table]
      rw [show alookup [(t, [(lbl, [])])] MISSING_LOG = none from by simp [alookup, hT]]
      simp [sortedKeys, pySorted, List.insertionSort, alookup]
  have hlog : print_log [(t, [(lbl, [])])]
      = [t ++ ":", "  Errors and Failures (" ++ toString 1 ++ "):", "  - " ++ lbl] := by
    simp [print_log]
  have hm : (summarize_logs BC TD inp true false).2
      = some (pyJoin "\n" (print_markdown_table [(t, [(lbl, [])])])) := by
    simp only [summarize_logs]
    rw [if_neg hcond, hlr, if_pos trivial]
  have hl : (summarize_logs BC TD inp false false).2
      = some (pyJoin "\n" (print_log [(t, [(lbl, [])])])) := by
    simp only [summarize_logs]
    rw [if_neg hcond, hlr]
    rw [if_neg (by decide), if_neg (by decide)]
  refine ⟨_, _, hm, hl, ?_, ?_, ?_, ?_⟩
  · rw [htable]
    exact StrContains_pyJoin "\n" _ (by simp) hrowt
  · rw [htable]
    exact StrContains_pyJoin "\n" _ (by simp) hrown
  · rw [hlog]
    have : StrContains (t ++ ":") t = true := StrContains_append_left _ (StrContains_self t)
    exact StrContains_pyJoin "\n" _ (by simp) this
  · rw [hlog]
    have : StrContains ("  - " ++ lbl) needle = true := StrContains_append_right _ hneedle
    exact StrContains_pyJoin "\n" _ (by simp) this

/-! ## Claim C7: single failing configuration names app and category -/

/-- C7: for every input holding exactly one failing configuration of one
category for one test application (whose name has no internal space, which
the Markdown table would replace by `&nbsp;`), both the Markdown table
output and the plain log output contain the test application's name together
with the correct category label (`[BUILD] [ERROR]`, `[TEST] [ERROR]`,
`[TEST] [FAILURE]`, or `[TEST] [FLAKINESS]`). -/
theorem c7_single_failure (BC : List String) (TD : String → Option String)
    (cat : FailCat) (t star : String) (ht : ∀ c ∈ t.data, c ≠ ' ') :
    ∃ m l, (summarize_logs BC TD (singleInput cat t star) true false).2 = some m
      ∧ (summarize_logs BC TD (singleInput cat t star) false false).2 = some l
      ∧ StrContains m t = true ∧ StrContains m (catLabel cat) = true
      ∧ StrContains l t = true ∧ StrContains l (catLabel cat) = true := by
  cases cat with
  | buildError =>
    exact single_outputs_contain BC TD t
      (mkLabel BC TD "BUILD" "ERROR" [get_configs_from_file_name star]
        (reorganize_configs BC [get_configs_from_file_name star])) ht
      (singleInput FailCat.buildError t star)
      (by rw [show (summState (singleInput FailCat.buildError t star)).log_data
            = [(t, ⟨[get_configs_from_file_name star], [], [], []⟩)] from rfl]; simp)
      rfl (catLabel FailCat.buildError)
      (by have h0 := mkLabel_single_contains BC TD "BUILD" "ERROR" (get_configs_from_file_name star)
          rw [(by decide : pyListRepr ["BUILD"] ++ " " ++ pyListRepr ["ERROR"]
            = ("[BUILD] [ERROR]" : String))] at h0
          exact h0)
  | testError =>
    exact single_outputs_contain BC TD t
      (mkLabel BC TD "TEST" "ERROR" [get_configs_from_file_name star]
        (reorganize_configs BC [get_configs_from_file_name star])) ht
      (singleInput FailCat.testError t star)
      (by rw [show (summState (singleInput FailCat.testError t star)).log_data
            = [(t, ⟨[], [get_configs_from_file_name star], [], []⟩)] from rfl]; simp)
      rfl (catLabel FailCat.testError)
      (by have h0 := mkLabel_single_contains BC TD "TEST" "ERROR" (get_configs_from_file_name star)
          rw [(by decide : pyListRepr ["TEST"] ++ " " ++ pyListRepr ["ERROR"]
            = ("[TEST] [ERROR]" : String))] at h0
          exact h0)
  | testFailure =>
    exact single_outputs_contain BC TD t
      (mkLabel BC TD "TEST" "FAILURE" [get_configs_from_file_name star]
        (reorganize_configs BC [get_configs_from_file_name star])) ht
      (singleInput FailCat.testFailure t star)
      (by rw [show (summState (singleInput FailCat.testFailure t star)).log_data
            = [(t, ⟨[], [], [get_configs_from_file_name star], []⟩)] from rfl]; simp)
      rfl (catLabel FailCat.testFailure)
      (by have h0 := mkLabel_single_contains BC TD "TEST" "FAILURE" (get_configs_from_file_name star)
          rw [(by decide : pyListRepr ["TEST"] ++ " " ++ pyListRepr ["FAILURE"]
            = ("[TEST] [FAILURE]" : String))] at h0
          exact h0)
  | testFlakiness =>
    exact single_outputs_contain BC TD t
      (mkLabel BC TD "TEST" "FLAKINESS" [get_configs_from_file_name star]
        (reorganize_configs BC [get_configs_from_file_name star])) ht
      (singleInput FailCat.testFlakiness t star)
      (by rw [show (summState (singleInput FailCat.testFlakiness t star)).log_data
            = [(t, ⟨[], [], [], [get_configs_from_file_name star]⟩)] from rfl]; simp)
      rfl (catLabel FailCat.testFlakiness)
      (by have h0 := mkLabel_single_contains BC TD "TEST" "FLAKINESS" (get_configs_from_file_name star)
          rw [(by decide : pyListRepr ["TEST"] ++ " " ++ pyListRepr ["FLAKINESS"]
            = ("[TEST] [FLAKINESS]" : String))] at h0
          exact h0)

/-- C7 witness: a single test failure for `messaging` on `ubuntu-openssl`. -/
theorem c7_single_failure_witness :
    ∃ m l, (summarize_logs ["os"] (fun _ => none)
        (singleInput FailCat.testFailure "messaging" "ubuntu-openssl") true false).2 = some m
      ∧ (summarize_logs ["os"] (fun _ => none)
        (singleInput FailCat.testFailure "messaging" "ubuntu-openssl") false false).2 = some l
      ∧ StrContains m "messaging" = true
      ∧ StrContains m (catLabel FailCat.testFailure) = true
      ∧ StrContains l "messaging" = true
      ∧ StrContains l (catLabel FailCat.testFailure) = true :=
  c7_single_failure ["os"] (fun _ => none) FailCat.testFailure "messaging" "ubuntu-openssl"
    (by decide)

/-! ## Lemmas for claim C6: the filename round trip -/

theorem string_mk_data (s : String) : String.mk s.data = s := rfl

theorem string_ne_empty_data {s : String} (h : s ≠ "") : s.data ≠ [] := by
  intro hd
  apply h
  apply String.ext
  rw [hd]

theorem splitAtWs_ne_nil (l : List Char) : splitAtWs l ≠ [] := by
  cases l with
  | nil => simp [splitAtWs]
  | cons c rest =>
    simp only [splitAtWs]
    split
    · simp
    · split <;> simp

theorem splitAtWs_word (w l : List Char) (hw : ∀ c ∈ w, c.isWhitespace = false) :
    splitAtWs (w ++ l) = (w ++ (splitAtWs l).headI) :: (splitAtWs l).tail := by
  induction w with
  | nil =>
    simp only [List.nil_append]
    rcases h : splitAtWs l with _ | ⟨a, r⟩
    · exact absurd h (splitAtWs_ne_nil l)
    · simp
  | cons c w' ih =>
    have hc : c.isWhitespace = false := hw c (List.mem_cons_self c w')
    simp only [List.cons_append, splitAtWs, hc, Bool.false_eq_true, if_false, List.append_eq]
    rw [ih (fun d hd => hw d (List.mem_cons_of_mem c hd))]

theorem splitAtWs_space (l : List Char) : splitAtWs (' ' :: l) = [] :: splitAtWs l := by
  simp only [splitAtWs]
  rw [if_pos (by decide)]

theorem pySplitWs_join (v : List String) (hv : v ≠ [])
    (hcomp : ∀ c ∈ v, c ≠ "" ∧ ∀ ch ∈ c.data, ch.isWhitespace = false) :
    pySplitWs (pyJoin " " v) = v := by
  induction v with
  | nil => exact absurd rfl hv
  | cons c v' ih =>
    rcases hcomp c (List.mem_cons_self _ _) with ⟨hce, hcw⟩
    cases v' with
    | nil =>
      show pySplitWs c = [c]
      unfold pySplitWs
      have h1 : splitAtWs c.data = [c.data] := by
        have h0 := splitAtWs_word c.data [] hcw
        rw [List.append_nil] at h0
        simpa [splitAtWs] using h0
      rw [h1]
      simp [string_ne_empty_data hce, string_mk_data]
    | cons c2 v'' =>
      have hdata : (pyJoin " " (c :: c2 :: v'')).data
          = c.data ++ (' ' :: (pyJoin " " (c2 :: v'')).data) := by
        rw [pyJoin_cons, String.data_append, String.data_append, List.append_assoc]
        rfl
      unfold pySplitWs
      rw [hdata, splitAtWs_word c.data _ hcw, splitAtWs_space]
      simp only [List.headI, List.tail, List.append_nil]
      have hkeep : (decide (c.data ≠ [])) = true := decide_eq_true (string_ne_empty_data hce)
      rw [List.filter_cons, hkeep]
      simp only [if_true, List.map_cons, string_mk_data]
      have htail := ih (by simp) (fun d hd => hcomp d (List.mem_cons_of_mem c hd))
      unfold pySplitWs at htail
      rw [htail]

theorem mapDash_eq_self {l : List Char} (h : ∀ ch ∈ l, ch ≠ '-') :
    l.map (fun ch => if ch = '-' then ' ' else ch) = l := by
  induction l with
  | nil => rfl
  | cons a t ih =>
    rw [List.map_cons, if_neg (h a (List.mem_cons_self a t)),
      ih (fun d hd => h d (List.mem_cons_of_mem a hd))]

theorem pyReplaceDash_id {c : String} (hc : ∀ ch ∈ c.data, ch ≠ '-') :
    pyReplaceDash c = c := by
  unfold pyReplaceDash
  rw [mapDash_eq_self hc, string_mk_data]

theorem pyReplaceDash_join (v : List String)
    (hv : ∀ c ∈ v, ∀ ch ∈ c.data, ch ≠ '-') :
    pyReplaceDash (pyJoin "-" v) = pyJoin " " v := by
  induction v with
  | nil => rfl
  | cons c v' ih =>
    cases v' with
    | nil => exact pyReplaceDash_id (hv c (List.mem_cons_self _ _))
    | cons c2 v'' =>
      have ih2 := ih (fun d hd => hv d (List.mem_cons_of_mem c hd))
      apply String.ext
      unfold pyReplaceDash
      rw [pyJoin_cons, pyJoin_cons]
      rw [String.data_append, String.data_append, String.data_append, String.data_append]
      simp only [List.map_append]
      rw [mapDash_eq_self (hv c (List.mem_cons_self _ _))]
      have hJ : (pyJoin "-" (c2 :: v'')).data.map (fun ch => if ch = '-' then ' ' else ch)
          = (pyJoin " " (c2 :: v'')).data := by
        have := congrArg String.data ih2
        unfold pyReplaceDash at this
        exact this
      rw [hJ]
      rfl

/-! ## Claim C6: the filename round trip -/

/-- C6 (amended): for every configuration vector whose components are
non-empty, are not the dropped `"latest"` marker, and contain no dash and no
whitespace, embedding the vector into the `*` part of a log filename
(components joined by dashes), re-deriving the vector with
`get_configs_from_file_name`, and re-running the aggregation yields the same
compacted label — indeed the derived vector is the original one.  (The
unrestricted claim is false: see the counterexample, where a component
containing a dash is cut apart and its `latest` part is dropped.) -/
theorem c6_roundtrip (v : List String) (hne : v ≠ [])
    (hcomp : ∀ c ∈ v, c ≠ "" ∧ c ≠ "latest"
      ∧ ∀ ch ∈ c.data, ch ≠ '-' ∧ ch.isWhitespace = false) :
    get_configs_from_file_name (pyJoin "-" v) = v ∧
    ∀ BC TD, aggregate_label BC TD (get_configs_from_file_name (pyJoin "-" v))
      = aggregate_label BC TD v := by
  have hsplit : pySplitWs (pyReplaceDash (pyJoin "-" v)) = v := by
    rw [pyReplaceDash_join v (fun c hc ch hch => ((hcomp c hc).2.2 ch hch).1)]
    exact pySplitWs_join v hne
      (fun c hc => ⟨(hcomp c hc).1, fun ch hch => ((hcomp c hc).2.2 ch hch).2⟩)
  have hmain : get_configs_from_file_name (pyJoin "-" v) = v := by
    simp only [get_configs_from_file_name]
    rw [hsplit]
    rw [if_neg (fun hmem => (hcomp "latest" hmem).2.1 rfl)]
  exact ⟨hmain, fun BC TD => by rw [hmain]⟩

/-- C6 witness: the dash-free vector `["windows", "openssl"]` survives the
round trip and aggregates identically. -/
theorem c6_roundtrip_witness :
    get_configs_from_file_name (pyJoin "-" ["windows", "openssl"]) = ["windows", "openssl"] ∧
    aggregate_label ["os"] (fun _ => none)
        (get_configs_from_file_name (pyJoin "-" ["windows", "openssl"]))
      = aggregate_label ["os"] (fun _ => none) ["windows", "openssl"] :=
  ⟨(c6_roundtrip ["windows", "openssl"] (by decide) (by decide)).1,
   (c6_roundtrip ["windows", "openssl"] (by decide) (by decide)).2 ["os"] (fun _ => none)⟩

/-- C6 counterexample: the exercised OS value `"windows-latest"` does not
survive the round trip — the derived vector is `["windows", "openssl"]` and
the compacted label differs. -/
theorem c6_counterexample :
    aggregate_label ["os", "ssl"] (fun _ => none)
        (get_configs_from_file_name (pyJoin "-" ["windows-latest", "openssl"]))
      ≠ aggregate_label ["os", "ssl"] (fun _ => none) ["windows-latest", "openssl"] ∧
    get_configs_from_file_name (pyJoin "-" ["windows-latest", "openssl"])
      ≠ ["windows-latest", "openssl"] := by
  constructor
  · decide
  · decide
